import Mathlib

/-!
Verification of the N-body simulation core (PhysicsEngine, two versions) and the
stability analyzer of the tree-body-problem repository.

Numbers are modelled as exact rationals (ℚ).  JavaScript's `Math.sqrt` has no
rational counterpart, so every definition that the source feeds through
`Math.sqrt` takes an explicit function `sqrt : ℚ → ℚ` as a parameter; theorems
either hold for every such function or assume the properties of a real square
root that they need (e.g. nonnegativity on nonnegative inputs).
-/

set_option maxHeartbeats 1000000

/-- Vector3 from types.ts: `{x, y, z}`, a value type. -/
structure Vec3 where
  x : ℚ
  y : ℚ
  z : ℚ
deriving DecidableEq

namespace Vec3

def zero : Vec3 := ⟨0, 0, 0⟩

def add (a b : Vec3) : Vec3 := ⟨a.x + b.x, a.y + b.y, a.z + b.z⟩

def neg (a : Vec3) : Vec3 := ⟨-a.x, -a.y, -a.z⟩

def sub (a b : Vec3) : Vec3 := ⟨a.x - b.x, a.y - b.y, a.z - b.z⟩

/-- Scalar multiple of a vector. -/
def smul (c : ℚ) (a : Vec3) : Vec3 := ⟨c * a.x, c * a.y, c * a.z⟩

instance : Zero Vec3 := ⟨zero⟩

instance : Add Vec3 := ⟨add⟩

instance : Neg Vec3 := ⟨neg⟩

theorem zero_def : (0 : Vec3) = ⟨0, 0, 0⟩ := rfl

theorem add_def (a b : Vec3) : a + b = ⟨a.x + b.x, a.y + b.y, a.z + b.z⟩ := rfl

instance : AddCommMonoid Vec3 where
  add_assoc a b c := by simp [add_def, Vec3.mk.injEq]; refine ⟨?_, ?_, ?_⟩ <;> ring
  zero_add a := by cases a; simp [add_def, zero_def]
  add_zero a := by cases a; simp [add_def, zero_def]
  add_comm a b := by simp [add_def, Vec3.mk.injEq]; refine ⟨?_, ?_, ?_⟩ <;> ring
  nsmul := nsmulRec

end Vec3

/-- Body from types.ts.  The display-only `color` and `name` strings are opaque
to the physics core and to every claim, so they are omitted here. -/
structure Body where
  position : Vec3
  velocity : Vec3
  mass : ℚ
  radius : ℚ
  isStar : Bool
deriving DecidableEq

/-- An acceleration-injection function from SimulationConfig:
`(state, t) => Vector3[]`.  It may return no array (`undefined`/`null`),
modelled by `Option`. -/
def CtrlFun : Type := List Body → ℚ → Option (List Vec3)

/-- SimulationConfig from types.ts. -/
structure SimulationConfig where
  G : ℚ
  timeStep : ℚ
  softening : ℚ
  energySampleInterval : Option ℚ
  controller : Option CtrlFun

/-- Partial<SimulationConfig> as consumed by applyParameterOverrides: each of
the five fields the method looks at is either absent (`undefined`) or present
with a value. -/
structure PartialConfig where
  G : Option ℚ := none
  timeStep : Option ℚ := none
  softening : Option ℚ := none
  energySampleInterval : Option ℚ := none
  controller : Option CtrlFun := none

/-- The result object a stability controller's onBeforeStep may return. -/
structure StabCtrlResult where
  paramOverrides : Option PartialConfig := none
  controller : Option CtrlFun := none

/-- A stability controller: `(state, t, dt) => result | void`. -/
def StabCtrl : Type := List Body → ℚ → ℚ → Option StabCtrlResult

/-- The EnergyStats record produced by calculateEnergyStats. -/
structure EnergyStats where
  totalEnergy : ℚ
  kineticEnergy : ℚ
  potentialEnergy : ℚ
  habitable : Bool
deriving DecidableEq

/-- Normalized gravitational constant from constants.ts. -/
def G_CONST : ℚ := 1

/-- JavaScript truthiness test of an optional number: `!x` is true exactly when
the value is absent (null/undefined) or equal to 0. -/
def jsFalsy (o : Option ℚ) : Bool :=
  match o with
  | none => true
  | some v => v == 0

/-- One upper-triangular pair list: the iteration order of
`for (i = 0; i < n; i++) for (j = i + 1; j < n; j++)`. -/
def upperPairs (n : ℕ) : List (Fin n × Fin n) :=
  (List.finRange n).flatMap fun i =>
    ((List.finRange n).filter fun j => i < j).map fun j => (i, j)

/-! ### Stability analyzer (stabilityAnalyzer module)

Pure functions over body snapshots.  Each function that the source routes
through `Math.sqrt` takes `sqrt` as an explicit first argument. -/

/-- Return record of computeEnergy. -/
structure EnergyTriple where
  totalEnergy : ℚ
  kineticEnergy : ℚ
  potentialEnergy : ℚ
deriving DecidableEq

/-- Accumulation over all unordered index pairs in the iteration order of
`for (i = 0; i < n; i++) for (j = i + 1; j < n; j++)` on a list: the head is
paired with every later element, then the tail is processed the same way. -/
def pairsFold {σ : Type} (f : σ → Body → Body → σ) : σ → List Body → σ
  | s, [] => s
  | s, b :: rest => pairsFold f (rest.foldl (fun s2 b2 => f s2 b b2) s) rest

/-- computeEnergy from the stability analyzer: kinetic energy via
`0.5 * m * v²`, potential energy accumulating `-= G_CONST*m1*m2/dist` with the
unsoftened distance `dist = sqrt(dx²+dy²+dz²)`. -/
def computeEnergy (sqrt : ℚ → ℚ) (bodies : List Body) : EnergyTriple :=
  let kinetic := bodies.foldl (fun k b =>
    let vSq := b.velocity.x ^ 2 + b.velocity.y ^ 2 + b.velocity.z ^ 2
    k + 0.5 * b.mass * vSq) 0
  let potential := pairsFold (fun p b1 b2 =>
    let dx := b1.position.x - b2.position.x
    let dy := b1.position.y - b2.position.y
    let dz := b1.position.z - b2.position.z
    let dist := sqrt (dx * dx + dy * dy + dz * dz)
    p - G_CONST * b1.mass * b2.mass / dist) 0 bodies
  { totalEnergy := kinetic + potential
    kineticEnergy := kinetic
    potentialEnergy := potential }

/-- computeCentroid: mass-weighted mean position, origin when total mass is 0.
The accumulator is the tuple (totalMass, cx, cy, cz) of the source's loop. -/
def computeCentroid (bodies : List Body) : Vec3 :=
  let s := bodies.foldl (fun acc body =>
    (acc.1 + body.mass,
     acc.2.1 + body.mass * body.position.x,
     acc.2.2.1 + body.mass * body.position.y,
     acc.2.2.2 + body.mass * body.position.z))
    ((0 : ℚ), (0 : ℚ), (0 : ℚ), (0 : ℚ))
  if s.1 = 0 then ⟨0, 0, 0⟩
  else ⟨s.2.1 / s.1, s.2.2.1 / s.1, s.2.2.2 / s.1⟩

/-- computeDistance between two position vectors (the source's duck-typed
body-or-vector argument is resolved to its position at each call site). -/
def computeDistance (sqrt : ℚ → ℚ) (a b : Vec3) : ℚ :=
  sqrt ((a.x - b.x) * (a.x - b.x) + (a.y - b.y) * (a.y - b.y)
    + (a.z - b.z) * (a.z - b.z))

/-- computeSymmetryScore: `1 / (1 + stdDev / (avgDist + 0.001))` over the
per-body distances to the centroid; 1 when fewer than 3 bodies. -/
def computeSymmetryScore (sqrt : ℚ → ℚ) (bodies : List Body) : ℚ :=
  let centroid := computeCentroid bodies
  let n := bodies.length
  if n < 3 then 1
  else
    let distances := bodies.map fun body => computeDistance sqrt body.position centroid
    let avgDist := distances.foldl (fun a b => a + b) 0 / (n : ℚ)
    let variance := distances.foldl (fun sum d => sum + (d - avgDist) ^ 2) 0 / (n : ℚ)
    let stdDev := sqrt variance
    1 / (1 + stdDev / (avgDist + 0.001))

/-- StabilityMetrics from types.ts (the always-present fields). -/
structure StabilityMetrics where
  totalEnergy : ℚ
  kineticEnergy : ℚ
  potentialEnergy : ℚ
  energyDeviation : ℚ
  virialRatio : ℚ
  centroid : Vec3
  radiusStd : ℚ
  symmetryScore : ℚ
  minDistance : ℚ
  maxDistance : ℚ
  spatialSpread : ℚ
  angularMomentum : Vec3
  energyChangeRate : ℚ

/-- Overall status values of evaluateStabilityStatus. -/
inductive StabilityLevel where
  | stable
  | warning
  | critical
deriving DecidableEq

/-- Tags standing for the human-readable issue strings pushed by
evaluateStabilityStatus (the formatted numbers in those strings carry no
information beyond the metrics themselves). -/
inductive StabilityIssue where
  | energyDeviationIssue
  | highKineticEnergy
  | lowKineticEnergy
  | ejectionDetected
  | lowSymmetry
deriving DecidableEq

/-- evaluateStabilityStatus: pushes one issue per violated threshold (the
virial-ratio checks are an if/else-if chain, so they contribute at most one
issue), then derives the status from the issue count. -/
def evaluateStabilityStatus (m : StabilityMetrics) :
    StabilityLevel × List StabilityIssue :=
  let issues : List StabilityIssue :=
    (if m.energyDeviation > 0.1 then [.energyDeviationIssue] else [])
    ++ (if StabilityMetrics.virialRatio m > 2.0 then [.highKineticEnergy]
        else if StabilityMetrics.virialRatio m < 0.4 then [.lowKineticEnergy]
        else [])
    ++ (if m.maxDistance > 100 then [.ejectionDetected] else [])
    ++ (if m.symmetryScore < 0.8 then [.lowSymmetry] else [])
  let status : StabilityLevel :=
    if issues.length ≥ 2 then .critical
    else if issues.length ≥ 1 then .warning
    else .stable
  (status, issues)

/-- Number of violated thresholds among the four named by the spec: energy
deviation > 0.1, virial ratio > 2.0 or < 0.4, max pairwise distance > 100,
symmetry score < 0.8. -/
def violationCount (m : StabilityMetrics) : ℕ :=
  (if m.energyDeviation > 0.1 then 1 else 0)
  + (if StabilityMetrics.virialRatio m > 2.0 ∨ StabilityMetrics.virialRatio m < 0.4
      then 1 else 0)
  + (if m.maxDistance > 100 then 1 else 0)
  + (if m.symmetryScore < 0.8 then 1 else 0)

/-! ### PhysicsEngine, first version (with the stability-control additions)

The engine's mutable buffers (k1..k4, tempBodies, the acceleration output
array) are fully overwritten before every read, so the functional model
returns fresh values; `calculateAccelerations` still takes the previous
buffer contents to model the caller-supplied output array. -/

/-- Parallel per-body derivative arrays: dPos = velocities, dVel =
accelerations. -/
structure DerivativeBuffer (n : ℕ) where
  dPos : Fin n → Vec3
  dVel : Fin n → Vec3

/-- addScaledVector helper: `target = a + b * s`, componentwise. -/
def addScaledVector (a b : Vec3) (s : ℚ) : Vec3 :=
  ⟨a.x + b.x * s, a.y + b.y * s, a.z + b.z * s⟩

namespace PhysicsEngine

/-- Inner-loop body of calculateAccelerations for one unordered pair:
`outAcc[i] += f*d*mB` and `outAcc[j] -= f*d*mA` with the softened force
factor `f = G / dist³`, `dist = sqrt(distSq + softening²)`. -/
def accPairUpdate (n : ℕ) (G softening : ℚ) (sqrt : ℚ → ℚ) (state : Fin n → Body)
    (acc : Fin n → Vec3) (p : Fin n × Fin n) : Fin n → Vec3 :=
  let bodyA := state p.1
  let bodyB := state p.2
  let dx := bodyB.position.x - bodyA.position.x
  let dy := bodyB.position.y - bodyA.position.y
  let dz := bodyB.position.z - bodyA.position.z
  let distSq := dx * dx + dy * dy + dz * dz
  let dist := sqrt (distSq + softening * softening)
  let f := G / (dist * dist * dist)
  let fx := f * dx
  let fy := f * dy
  let fz := f * dz
  let acc1 := Function.update acc p.1
    ⟨(acc p.1).x + fx * bodyB.mass, (acc p.1).y + fy * bodyB.mass,
     (acc p.1).z + fz * bodyB.mass⟩
  Function.update acc1 p.2
    ⟨(acc1 p.2).x - fx * bodyA.mass, (acc1 p.2).y - fy * bodyA.mass,
     (acc1 p.2).z - fz * bodyA.mass⟩

/-- calculateAccelerations (character-identical in both PhysicsEngine
versions): the reset loop overwrites every entry of the caller-supplied
output array with zero, then the pair loop accumulates contributions. -/
def calculateAccelerations (n : ℕ) (cfg : SimulationConfig) (sqrt : ℚ → ℚ)
    (state : Fin n → Body) (outAcc : Fin n → Vec3) : Fin n → Vec3 :=
  let _prev := outAcc
  let reset : Fin n → Vec3 := fun _ => ⟨0, 0, 0⟩
  (upperPairs n).foldl (accPairUpdate n cfg.G cfg.softening sqrt state) reset

/-- Scratch-state setup of evaluate: tempBodies[i] receives the projected
position and velocity; every other field (mass, isStar, ...) is the body's
own, constant since construction. -/
def tempState (n : ℕ) (inputState : Fin n → Body) (dt : ℚ)
    (derivative : Option (DerivativeBuffer n)) : Fin n → Body := fun i =>
  match derivative with
  | some d =>
      { inputState i with
          position := addScaledVector (inputState i).position (d.dPos i) dt
          velocity := addScaledVector (inputState i).velocity (d.dVel i) dt }
  | none => inputState i

/-- evaluate (first version): gravity on the scratch state, plus the
configured acceleration-injection function's output when its length matches
the body count.  A JS array returned by the controller cannot have element
holes in this embedding, so the source's per-element `if (u)` guard and the
`|| 0` component fallbacks are vacuous here. -/
def evaluate (n : ℕ) (sqrt : ℚ → ℚ) (cfg : SimulationConfig) (currentTime : ℚ)
    (inputState : Fin n → Body) (dt : ℚ)
    (derivative : Option (DerivativeBuffer n)) : DerivativeBuffer n :=
  let temp := tempState n inputState dt derivative
  let grav := calculateAccelerations n cfg sqrt temp (fun _ => ⟨0, 0, 0⟩)
  let dVel : Fin n → Vec3 :=
    match cfg.controller with
    | none => grav
    | some ctrl =>
        let stageTime := currentTime + dt
        match ctrl (List.ofFn temp) stageTime with
        | none => grav
        | some controls =>
            if controls.length = n then
              fun i =>
                let u := controls.getD i.val ⟨0, 0, 0⟩
                ⟨(grav i).x + u.x, (grav i).y + u.y, (grav i).z + u.z⟩
            else grav
  { dPos := fun i => (temp i).velocity, dVel := dVel }

/-- The in-place RK4 combination
`state += (k1 + 2*k2 + 2*k3 + k4) * dt / 6`, applied independently to
position and velocity of each body. -/
def rk4Combine (n : ℕ) (bodies : Fin n → Body) (k1 k2 k3 k4 : DerivativeBuffer n)
    (dt : ℚ) : Fin n → Body := fun i =>
  let dtDiv6 := dt / 6
  let body := bodies i
  { body with
      position :=
        ⟨body.position.x + ((k1.dPos i).x + 2 * (k2.dPos i).x + 2 * (k3.dPos i).x
            + (k4.dPos i).x) * dtDiv6,
         body.position.y + ((k1.dPos i).y + 2 * (k2.dPos i).y + 2 * (k3.dPos i).y
            + (k4.dPos i).y) * dtDiv6,
         body.position.z + ((k1.dPos i).z + 2 * (k2.dPos i).z + 2 * (k3.dPos i).z
            + (k4.dPos i).z) * dtDiv6⟩
      velocity :=
        ⟨body.velocity.x + ((k1.dVel i).x + 2 * (k2.dVel i).x + 2 * (k3.dVel i).x
            + (k4.dVel i).x) * dtDiv6,
         body.velocity.y + ((k1.dVel i).y + 2 * (k2.dVel i).y + 2 * (k3.dVel i).y
            + (k4.dVel i).y) * dtDiv6,
         body.velocity.z + ((k1.dVel i).z + 2 * (k2.dVel i).z + 2 * (k3.dVel i).z
            + (k4.dVel i).z) * dtDiv6⟩ }

/-- First pass of calculateEnergyStats (first version): kinetic energy and
the planet reference.  The planet is tracked as an index because the
source's `b1 === planet` compares array-element identity. -/
def kineticAndPlanet (n : ℕ) (bodies : Fin n → Body) : ℚ × Option (Fin n) :=
  (List.finRange n).foldl (fun s i =>
    let b := bodies i
    let vSq := b.velocity.x ^ 2 + b.velocity.y ^ 2 + b.velocity.z ^ 2
    (s.1 + 0.5 * b.mass * vSq, if b.isStar then s.2 else some i)) (0, none)

end PhysicsEngine

/-- Comparison `d < m` where `none` stands for JavaScript's Infinity. -/
def ltInf (d : ℚ) (m : Option ℚ) : Bool :=
  match m with
  | none => true
  | some v => d < v

/-- Test `m < 2` where `none` stands for Infinity (which is not < 2). -/
def infLtTwo (m : Option ℚ) : Bool :=
  match m with
  | none => false
  | some v => v < 2

namespace PhysicsEngine

/-- Body of the single O(n²) pair loop of calculateEnergyStats (first
version), acting on the accumulator (potential, habitable, minStarDist). -/
def energyPairStep (n : ℕ) (G : ℚ) (sqrt : ℚ → ℚ) (bodies : Fin n → Body)
    (planet : Option (Fin n)) (s : ℚ × Bool × Option ℚ) (p : Fin n × Fin n) :
    ℚ × Bool × Option ℚ :=
  let b1 := bodies p.1
  let b2 := bodies p.2
  let dx := b1.position.x - b2.position.x
  let dy := b1.position.y - b2.position.y
  let dz := b1.position.z - b2.position.z
  let distSq := dx * dx + dy * dy + dz * dz
  let dist := sqrt distSq
  let potential := s.1 - G * b1.mass * b2.mass / dist
  match planet with
  | none => (potential, s.2.1, s.2.2)
  | some pl =>
      if (p.1 = pl ∧ b2.isStar) ∨ (p.2 = pl ∧ b1.isStar) then
        let star := if b1.isStar then b1 else b2
        let optimalDist := sqrt star.mass * 1.5
        let habitable :=
          if |dist - optimalDist| < optimalDist * 0.3 then true else s.2.1
        let minStarDist := if ltInf dist s.2.2 then some dist else s.2.2
        (potential, habitable, minStarDist)
      else (potential, s.2.1, s.2.2)

/-- calculateEnergyStats (first version): one pass for kinetic energy and the
planet, one pair loop for potential energy, the habitable band and the
minimum planet-star distance, then the burn check `minStarDist < 2`. -/
def calculateEnergyStats (n : ℕ) (sqrt : ℚ → ℚ) (cfg : SimulationConfig)
    (bodies : Fin n → Body) : EnergyStats :=
  let kp := kineticAndPlanet n bodies
  let kinetic := kp.1
  let planet := kp.2
  let res := (upperPairs n).foldl (energyPairStep n cfg.G sqrt bodies planet)
    (0, false, none)
  let potential := res.1
  let habitable0 := res.2.1
  let minStarDist := res.2.2
  let habitable := if planet.isSome ∧ infLtTwo minStarDist then false else habitable0
  { totalEnergy := kinetic + potential
    kineticEnergy := kinetic
    potentialEnergy := potential
    habitable := habitable }

/-- Engine state of the first PhysicsEngine version.  The stats callback is
recorded only by presence: invoking it has no effect on engine state. -/
structure State (n : ℕ) where
  bodies : Fin n → Body
  config : SimulationConfig
  energySampleInterval : ℚ
  timeSinceLastEnergySample : ℚ
  statsCache : Option EnergyStats
  hasStatsCallback : Bool
  currentTime : ℚ
  stabilityController : Option StabCtrl
  initialEnergy : Option ℚ

/-- The constructor: deep-copies the bodies (plain value semantics here),
allocates the buffers, and seeds the statistics cache. -/
def create {n : ℕ} (sqrt : ℚ → ℚ) (initialBodies : Fin n → Body)
    (config : SimulationConfig) : State n :=
  { bodies := initialBodies
    config := config
    energySampleInterval := config.energySampleInterval.getD 1
    timeSinceLastEnergySample := 0
    statsCache := some (calculateEnergyStats n sqrt config initialBodies)
    hasStatsCallback := false
    currentTime := 0
    stabilityController := none
    initialEnergy := none }

/-- setStatsCallback: stores the callback and (when present, with a cache)
invokes it, which does not change engine state. -/
def setStatsCallback {n : ℕ} (e : State n) (cb : Bool) : State n :=
  { e with hasStatsCallback := cb }

/-- setStabilityController: stores the controller; records the initial-energy
baseline only when `!this.initialEnergy` is true, i.e. when no baseline is
recorded or the recorded baseline is 0. -/
def setStabilityController {n : ℕ} (sqrt : ℚ → ℚ) (e : State n)
    (controller : Option StabCtrl) : State n :=
  let e1 := { e with stabilityController := controller }
  if jsFalsy e1.initialEnergy then
    let stats := calculateEnergyStats n sqrt e1.config e1.bodies
    { e1 with initialEnergy := some stats.totalEnergy }
  else e1

/-- applyParameterOverrides: five independent `!== undefined` guards, each
assigning one config field; the energySampleInterval override also updates
the engine's own sampling-interval field. -/
def applyParameterOverrides {n : ℕ} (e : State n) (overrides : PartialConfig) :
    State n :=
  let e1 := match overrides.timeStep with
    | some v => { e with config := { e.config with timeStep := v } }
    | none => e
  let e2 := match overrides.softening with
    | some v => { e1 with config := { e1.config with softening := v } }
    | none => e1
  let e3 := match overrides.G with
    | some v => { e2 with config := { e2.config with G := v } }
    | none => e2
  let e4 := match overrides.energySampleInterval with
    | some v => { e3 with config := { e3.config with energySampleInterval := some v }
                          energySampleInterval := v }
    | none => e3
  match overrides.controller with
  | some c => { e4 with config := { e4.config with controller := some c } }
  | none => e4

/-- setConfig: full replacement. -/
def setConfig {n : ℕ} (e : State n) (config : SimulationConfig) : State n :=
  { e with config := config
           energySampleInterval := config.energySampleInterval.getD 1 }

/-- The pre-step stability-controller phase of step (first version): invoke
the attached controller, then apply any returned parameter overrides and any
returned replacement injection function. -/
def stepHook {n : ℕ} (e : State n) (dt : ℚ) : State n :=
  match e.stabilityController with
  | none => e
  | some ctrl =>
      match ctrl (List.ofFn e.bodies) e.currentTime dt with
      | none => e
      | some res =>
          let ea := match res.paramOverrides with
            | some o => applyParameterOverrides e o
            | none => e
          match res.controller with
          | some c => { ea with config := { ea.config with controller := some c } }
          | none => ea

/-- step (first version): stability-controller hook, four RK4 stages, the
combination, clock and sampling-accumulator updates, and the periodic stats
recomputation (the callback invocation has no state effect). -/
def step {n : ℕ} (sqrt : ℚ → ℚ) (e : State n) (dt : ℚ) : State n :=
  let e := stepHook e dt
  let k1 := evaluate n sqrt e.config e.currentTime e.bodies 0 none
  let k2 := evaluate n sqrt e.config e.currentTime e.bodies (dt * 0.5) (some k1)
  let k3 := evaluate n sqrt e.config e.currentTime e.bodies (dt * 0.5) (some k2)
  let k4 := evaluate n sqrt e.config e.currentTime e.bodies dt (some k3)
  let newBodies := rk4Combine n e.bodies k1 k2 k3 k4 dt
  let e2 := { e with bodies := newBodies
                     currentTime := e.currentTime + dt
                     timeSinceLastEnergySample := e.timeSinceLastEnergySample + dt }
  if e2.timeSinceLastEnergySample ≥ e2.energySampleInterval then
    { e2 with statsCache := some (calculateEnergyStats n sqrt e2.config e2.bodies)
              timeSinceLastEnergySample := 0 }
  else e2

/-- getStats: returns the cached snapshot, recomputing (and caching) first
only when no cache exists. -/
def getStats {n : ℕ} (sqrt : ℚ → ℚ) (e : State n) : EnergyStats × State n :=
  match e.statsCache with
  | none =>
      let s := calculateEnergyStats n sqrt e.config e.bodies
      (s, { e with statsCache := some s })
  | some s => (s, e)

/-- The operations a caller can perform on a first-version engine after
construction. -/
inductive EngineOp where
  | step (dt : ℚ)
  | setStabilityController (controller : Option StabCtrl)
  | applyParameterOverrides (overrides : PartialConfig)
  | setConfig (config : SimulationConfig)
  | setStatsCallback (cb : Bool)
  | getStats

/-- Apply one public operation to the engine state. -/
def runOp {n : ℕ} (sqrt : ℚ → ℚ) (e : State n) : EngineOp → State n
  | .step dt => step sqrt e dt
  | .setStabilityController c => setStabilityController sqrt e c
  | .applyParameterOverrides o => applyParameterOverrides e o
  | .setConfig c => setConfig e c
  | .setStatsCallback b => setStatsCallback e b
  | .getStats => (getStats sqrt e).2

end PhysicsEngine

namespace PhysicsEngine2

/-! The second PhysicsEngine version in part_000: no stability-control hook,
no clock, and a restructured calculateEnergyStats.  Its calculateAccelerations
and the scratch-state setup of evaluate are character-identical to the first
version's, so `PhysicsEngine.calculateAccelerations` and
`PhysicsEngine.tempState` are reused. -/

/-- Single categorization pass of calculateEnergyStats (second version):
kinetic energy, the planet (last non-star body) and the stars, in index
order. -/
def categorize (n : ℕ) (bodies : Fin n → Body) : ℚ × Option (Fin n) × List (Fin n) :=
  (List.finRange n).foldl (fun s i =>
    let b := bodies i
    let vSq := b.velocity.x ^ 2 + b.velocity.y ^ 2 + b.velocity.z ^ 2
    (s.1 + 0.5 * b.mass * vSq,
     if b.isStar then s.2.1 else some i,
     if b.isStar then s.2.2 ++ [i] else s.2.2)) (0, none, [])

/-- The plain potential-energy pair loop of calculateEnergyStats (second
version). -/
def potentialLoop (n : ℕ) (G : ℚ) (sqrt : ℚ → ℚ) (bodies : Fin n → Body) : ℚ :=
  (upperPairs n).foldl (fun pot p =>
    let b1 := bodies p.1
    let b2 := bodies p.2
    let dx := b1.position.x - b2.position.x
    let dy := b1.position.y - b2.position.y
    let dz := b1.position.z - b2.position.z
    let dist := sqrt (dx * dx + dy * dy + dz * dz)
    pot - G * b1.mass * b2.mass / dist) 0

/-- The habitable check of calculateEnergyStats (second version): a loop over
the stars tracking the band flag and the minimum planet-star distance,
followed by the burn check. -/
def habitableCheck (n : ℕ) (sqrt : ℚ → ℚ) (bodies : Fin n → Body)
    (planet : Option (Fin n)) (stars : List (Fin n)) : Bool :=
  match planet with
  | none => false
  | some pl =>
      let res := stars.foldl (fun s si =>
        let star := bodies si
        let pb := bodies pl
        let dx := star.position.x - pb.position.x
        let dy := star.position.y - pb.position.y
        let dz := star.position.z - pb.position.z
        let dist := sqrt (dx * dx + dy * dy + dz * dz)
        let optimalDist := sqrt star.mass * 1.5
        let h := if |dist - optimalDist| < optimalDist * 0.3 then true else s.1
        let m := if ltInf dist s.2 then some dist else s.2
        (h, m)) (false, none)
      if infLtTwo res.2 then false else res.1

/-- calculateEnergyStats (second version). -/
def calculateEnergyStats (n : ℕ) (sqrt : ℚ → ℚ) (cfg : SimulationConfig)
    (bodies : Fin n → Body) : EnergyStats :=
  let c := categorize n bodies
  let kinetic := c.1
  let planet := c.2.1
  let stars := c.2.2
  let potential := potentialLoop n cfg.G sqrt bodies
  let habitable := habitableCheck n sqrt bodies planet stars
  { totalEnergy := kinetic + potential
    kineticEnergy := kinetic
    potentialEnergy := potential
    habitable := habitable }

/-- evaluate (second version): identical to the first version's except that
no controller-injection block exists. -/
def evaluate (n : ℕ) (sqrt : ℚ → ℚ) (cfg : SimulationConfig)
    (inputState : Fin n → Body) (dt : ℚ)
    (derivative : Option (DerivativeBuffer n)) : DerivativeBuffer n :=
  let temp := PhysicsEngine.tempState n inputState dt derivative
  { dPos := fun i => (temp i).velocity
    dVel := PhysicsEngine.calculateAccelerations n cfg sqrt temp (fun _ => ⟨0, 0, 0⟩) }

/-- Engine state of the second PhysicsEngine version. -/
structure State (n : ℕ) where
  bodies : Fin n → Body
  config : SimulationConfig
  energySampleInterval : ℚ
  timeSinceLastEnergySample : ℚ
  statsCache : Option EnergyStats
  hasStatsCallback : Bool

/-- The constructor of the second version. -/
def create {n : ℕ} (sqrt : ℚ → ℚ) (initialBodies : Fin n → Body)
    (config : SimulationConfig) : State n :=
  { bodies := initialBodies
    config := config
    energySampleInterval := config.energySampleInterval.getD 1
    timeSinceLastEnergySample := 0
    statsCache := some (calculateEnergyStats n sqrt config initialBodies)
    hasStatsCallback := false }

/-- step (second version): the four RK4 stages, the combination, the
sampling-accumulator update and the periodic stats recomputation. -/
def step {n : ℕ} (sqrt : ℚ → ℚ) (e : State n) (dt : ℚ) : State n :=
  let k1 := evaluate n sqrt e.config e.bodies 0 none
  let k2 := evaluate n sqrt e.config e.bodies (dt * 0.5) (some k1)
  let k3 := evaluate n sqrt e.config e.bodies (dt * 0.5) (some k2)
  let k4 := evaluate n sqrt e.config e.bodies dt (some k3)
  let newBodies := PhysicsEngine.rk4Combine n e.bodies k1 k2 k3 k4 dt
  let e2 := { e with bodies := newBodies
                     timeSinceLastEnergySample := e.timeSinceLastEnergySample + dt }
  if e2.timeSinceLastEnergySample ≥ e2.energySampleInterval then
    { e2 with statsCache := some (calculateEnergyStats n sqrt e2.config e2.bodies)
              timeSinceLastEnergySample := 0 }
  else e2

/-- getStats (second version). -/
def getStats {n : ℕ} (sqrt : ℚ → ℚ) (e : State n) : EnergyStats × State n :=
  match e.statsCache with
  | none =>
      let s := calculateEnergyStats n sqrt e.config e.bodies
      (s, { e with statsCache := some s })
  | some s => (s, e)

end PhysicsEngine2

/-- The potential-energy formula exactly as the specification's words state it
(`potential = Σ over i<j of −G·m_i·m_j/|r_i−r_j|²`): the divisor is the
squared unsoftened separation.  Used only to compare the spec's wording with
the source. -/
def specSquaredPotential (bodies : List Body) : ℚ :=
  pairsFold (fun p b1 b2 =>
    let dx := b1.position.x - b2.position.x
    let dy := b1.position.y - b2.position.y
    let dz := b1.position.z - b2.position.z
    p - G_CONST * b1.mass * b2.mass / (dx * dx + dy * dy + dz * dz)) 0 bodies

/-! ### Concrete instances used by counterexamples and witnesses -/

/-- Two unit-mass bodies at rest, separated by distance 1 along x (a star and
a planet). -/
def twoBodies : Fin 2 → Body := fun i =>
  if i.val = 0 then
    { position := ⟨0, 0, 0⟩, velocity := ⟨0, 0, 0⟩, mass := 1, radius := 1, isStar := true }
  else
    { position := ⟨1, 0, 0⟩, velocity := ⟨0, 0, 0⟩, mass := 1, radius := 1, isStar := false }

/-- A plain configuration: G = 1, no controller. -/
def plainConfig : SimulationConfig :=
  { G := 1, timeStep := 1 / 100, softening := 0
    energySampleInterval := none, controller := none }

/-- An engine that attached a controller once (recording the baseline −1),
then had its configuration replaced with a zero-G one, so that its current
total energy (0) differs from the recorded baseline. -/
def c4Engine : PhysicsEngine.State 2 :=
  PhysicsEngine.setConfig
    (PhysicsEngine.setStabilityController id
      (PhysicsEngine.create id twoBodies plainConfig) none)
    { plainConfig with G := 0 }

/-- Two unit-mass bodies at rest, separated by distance 2 along x, as a list
for the stability analyzer. -/
def c1Bodies : List Body :=
  [{ position := ⟨0, 0, 0⟩, velocity := ⟨0, 0, 0⟩, mass := 1, radius := 1, isStar := true },
   { position := ⟨2, 0, 0⟩, velocity := ⟨0, 0, 0⟩, mass := 1, radius := 1, isStar := true }]

/-- A square-root function agreeing with Math.sqrt on the only input the
c1Bodies computation feeds it (the squared separation 4). -/
def sqrtFour : ℚ → ℚ := fun q => if q = 4 then 2 else 0

/-- Three unit-mass bodies (an asymmetric triangle) for the symmetry-score
witness. -/
def threeBodies : List Body :=
  [{ position := ⟨0, 0, 0⟩, velocity := ⟨0, 0, 0⟩, mass := 1, radius := 1, isStar := true },
   { position := ⟨1, 0, 0⟩, velocity := ⟨0, 0, 0⟩, mass := 1, radius := 1, isStar := true },
   { position := ⟨0, 1, 0⟩, velocity := ⟨0, 0, 0⟩, mass := 1, radius := 1, isStar := false }]

/-- One free body with nonzero velocity, for the zero-gravity witness. -/
def oneBody : Fin 1 → Body := fun _ =>
  { position := ⟨1, 2, 3⟩, velocity := ⟨4, 5, 6⟩, mass := 1, radius := 1, isStar := true }

/-- A zero-gravity configuration with no controller. -/
def zeroGConfig : SimulationConfig :=
  { G := 0, timeStep := 1 / 100, softening := 0
    energySampleInterval := none, controller := none }

/-- The specified acceleration contribution of body j on body i:
`G · m_j · (pos_j − pos_i) / (|pos_j − pos_i|² + ε²)^1.5`, with the 1.5-power
of the softened squared distance written as the cube of its square root. -/
def accelFormula (n : ℕ) (G softening : ℚ) (sqrt : ℚ → ℚ) (state : Fin n → Body)
    (i j : Fin n) : Vec3 :=
  let d := Vec3.sub (state j).position (state i).position
  let dist := sqrt (d.x * d.x + d.y * d.y + d.z * d.z + softening * softening)
  Vec3.smul (G * (state j).mass / (dist * dist * dist)) d

/-- The per-body effect of one inner-loop iteration of calculateAccelerations
on entry k: `+f*d*mB` at k = i, `−f*d*mA` at k = j, nothing elsewhere. -/
def accContrib (n : ℕ) (G softening : ℚ) (sqrt : ℚ → ℚ) (state : Fin n → Body)
    (p : Fin n × Fin n) (k : Fin n) : Vec3 :=
  let bodyA := state p.1
  let bodyB := state p.2
  let dx := bodyB.position.x - bodyA.position.x
  let dy := bodyB.position.y - bodyA.position.y
  let dz := bodyB.position.z - bodyA.position.z
  let distSq := dx * dx + dy * dy + dz * dz
  let dist := sqrt (distSq + softening * softening)
  let f := G / (dist * dist * dist)
  if k = p.1 then ⟨f * dx * bodyB.mass, f * dy * bodyB.mass, f * dz * bodyB.mass⟩
  else if k = p.2 then
    ⟨-(f * dx * bodyA.mass), -(f * dy * bodyA.mass), -(f * dz * bodyA.mass)⟩
  else 0

/-- A misbehaving acceleration-injection function returning an empty array
(wrong length for any body count ≥ 1). -/
def misCtrl : CtrlFun := fun _ _ => some []

/-- plainConfig with the misbehaving injection function attached. -/
def mismatchConfig : SimulationConfig := { plainConfig with controller := some misCtrl }

/-- Running-minimum update `if (d < m) m = d` with `none` as Infinity. -/
def minU (m : Option ℚ) (d : ℚ) : Option ℚ :=
  if ltInf d m then some d else m

/-- The distance computed for an index pair in the first version's energy
pair loop: `sqrt((b1-b2)·(b1-b2))` componentwise. -/
def pairDist (n : ℕ) (sqrt : ℚ → ℚ) (bodies : Fin n → Body)
    (p : Fin n × Fin n) : ℚ :=
  sqrt (((bodies p.1).position.x - (bodies p.2).position.x)
      * ((bodies p.1).position.x - (bodies p.2).position.x)
    + ((bodies p.1).position.y - (bodies p.2).position.y)
      * ((bodies p.1).position.y - (bodies p.2).position.y)
    + ((bodies p.1).position.z - (bodies p.2).position.z)
      * ((bodies p.1).position.z - (bodies p.2).position.z))

/-- The star of a planet-star pair as the first version picks it:
`if (b1.isStar) b1 else b2`. -/
def pairStar (n : ℕ) (bodies : Fin n → Body) (p : Fin n × Fin n) : Body :=
  if (bodies p.1).isStar then bodies p.1 else bodies p.2

/-- The habitable-band test of the first version for one pair. -/
def pairBand (n : ℕ) (sqrt : ℚ → ℚ) (bodies : Fin n → Body)
    (p : Fin n × Fin n) : Prop :=
  |pairDist n sqrt bodies p - sqrt (pairStar n bodies p).mass * 1.5|
    < sqrt (pairStar n bodies p).mass * 1.5 * 0.3

/-- The first version's `isPlanetStarPair` test, with the planet tracked by
index pl. -/
def isPSP (n : ℕ) (bodies : Fin n → Body) (pl : Fin n) (p : Fin n × Fin n) : Prop :=
  (p.1 = pl ∧ (bodies p.2).isStar = true) ∨ (p.2 = pl ∧ (bodies p.1).isStar = true)

/-- The distance computed in the second version's star loop:
`sqrt((star - planet)·(star - planet))` componentwise. -/
def starDist (n : ℕ) (sqrt : ℚ → ℚ) (bodies : Fin n → Body) (pl s : Fin n) : ℚ :=
  sqrt (((bodies s).position.x - (bodies pl).position.x)
      * ((bodies s).position.x - (bodies pl).position.x)
    + ((bodies s).position.y - (bodies pl).position.y)
      * ((bodies s).position.y - (bodies pl).position.y)
    + ((bodies s).position.z - (bodies pl).position.z)
      * ((bodies s).position.z - (bodies pl).position.z))

/-- The habitable-band test of the second version for one star. -/
def starBand (n : ℕ) (sqrt : ℚ → ℚ) (bodies : Fin n → Body) (pl s : Fin n) : Prop :=
  |starDist n sqrt bodies pl s - sqrt (bodies s).mass * 1.5|
    < sqrt (bodies s).mass * 1.5 * 0.3

instance {n : ℕ} {bodies : Fin n → Body} {pl : Fin n} {p : Fin n × Fin n} :
    Decidable (isPSP n bodies pl p) := by
  unfold isPSP
  infer_instance

instance {n : ℕ} {sqrt : ℚ → ℚ} {bodies : Fin n → Body} {p : Fin n × Fin n} :
    Decidable (pairBand n sqrt bodies p) := by
  unfold pairBand
  infer_instance

instance {n : ℕ} {sqrt : ℚ → ℚ} {bodies : Fin n → Body} {pl s : Fin n} :
    Decidable (starBand n sqrt bodies pl s) := by
  unfold starBand
  infer_instance

/-- The star indices in iteration order (the second version pushes each star
onto its list in index order, which is this filter). -/
def starsOf (n : ℕ) (bodies : Fin n → Body) : List (Fin n) :=
  (List.finRange n).filter fun i => (bodies i).isStar

/-- The field-for-field correspondence between the two engine versions'
states: the second version's state is the first's without the clock and the
stability-control fields. -/
def toV2 {n : ℕ} (e : PhysicsEngine.State n) : PhysicsEngine2.State n :=
  { bodies := e.bodies
    config := e.config
    energySampleInterval := e.energySampleInterval
    timeSinceLastEnergySample := e.timeSinceLastEnergySample
    statsCache := e.statsCache
    hasStatsCallback := e.hasStatsCallback }

/-! ### Theorems -/

section ProjectionLemmas

variable {α β γ : Type}

theorem foldl_fst_eq (f : β × γ → α → β × γ) (g : β → α → β)
    (hfst : ∀ s x, (f s x).1 = g s.1 x) :
    ∀ (l : List α) (s0 : β × γ), (l.foldl f s0).1 = l.foldl g s0.1
  | [], _ => rfl
  | x :: l, s0 => by
    rw [List.foldl_cons, List.foldl_cons, foldl_fst_eq f g hfst l (f s0 x), hfst]

theorem foldl_snd_eq (f : β × γ → α → β × γ) (h : γ → α → γ)
    (hsnd : ∀ s x, (f s x).2 = h s.2 x) :
    ∀ (l : List α) (s0 : β × γ), (l.foldl f s0).2 = l.foldl h s0.2
  | [], _ => rfl
  | x :: l, s0 => by
    rw [List.foldl_cons, List.foldl_cons, foldl_snd_eq f h hsnd l (f s0 x), hsnd]

theorem foldl_append_filter (c : α → Bool) :
    ∀ (l : List α) (init : List α),
      l.foldl (fun acc i => if c i then acc ++ [i] else acc) init = init ++ l.filter c
  | [], init => by simp
  | x :: l, init => by
    rw [List.foldl_cons, List.filter_cons]
    by_cases hx : c x
    · simp only [hx, if_true]
      rw [foldl_append_filter c l (init ++ [x]), List.append_assoc]
      rfl
    · simp only [hx, if_false, Bool.false_eq_true]
      exact foldl_append_filter c l init

end ProjectionLemmas

theorem mem_upperPairs {n : ℕ} {p : Fin n × Fin n} :
    p ∈ upperPairs n ↔ p.1 < p.2 := by
  constructor
  · intro h
    rw [upperPairs, List.mem_flatMap] at h
    obtain ⟨a, _, hmem⟩ := h
    rw [List.mem_map] at hmem
    obtain ⟨b, hb, rfl⟩ := hmem
    rw [List.mem_filter] at hb
    simpa using hb.2
  · intro h
    rw [upperPairs, List.mem_flatMap]
    refine ⟨p.1, List.mem_finRange _, ?_⟩
    rw [List.mem_map]
    refine ⟨p.2, ?_, rfl⟩
    rw [List.mem_filter]
    exact ⟨List.mem_finRange _, by simpa using h⟩

/-! Generic lemmas turning the source's accumulator loops into sums. -/

section FoldLemmas

variable {α β γ : Type} {M : Type} [AddCommMonoid M]

theorem foldl_add_eq (f : α → M) :
    ∀ (l : List α) (init : M), l.foldl (fun a x => a + f x) init = init + (l.map f).sum
  | [], init => by simp
  | x :: l, init => by
    rw [List.foldl_cons, foldl_add_eq f l (init + f x)]
    simp [add_assoc]

theorem foldl_sub_eq (f : α → ℚ) :
    ∀ (l : List α) (init : ℚ), l.foldl (fun a x => a - f x) init = init - (l.map f).sum
  | [], init => by simp
  | x :: l, init => by
    rw [List.foldl_cons, foldl_sub_eq f l (init - f x)]
    simp [List.sum_cons]
    ring

theorem foldl_congr_mem (f g : β → α → β) :
    ∀ (l : List α), (∀ b x, x ∈ l → f b x = g b x) → ∀ (init : β), l.foldl f init = l.foldl g init
  | [], _, _ => rfl
  | x :: l, h, init => by
    rw [List.foldl_cons, List.foldl_cons, h init x (List.mem_cons_self x l)]
    exact foldl_congr_mem f g l (fun b y hy => h b y (List.mem_cons_of_mem x hy)) _

theorem foldl_prod_eq (g : β → α → β) (h : γ → α → γ) :
    ∀ (l : List α) (b0 : β) (c0 : γ),
      l.foldl (fun s x => (g s.1 x, h s.2 x)) (b0, c0) = (l.foldl g b0, l.foldl h c0)
  | [], _, _ => rfl
  | x :: l, b0, c0 => by
    rw [List.foldl_cons, List.foldl_cons, List.foldl_cons]
    exact foldl_prod_eq g h l (g b0 x) (h c0 x)

theorem foldl_or_any (c : α → Bool) :
    ∀ (l : List α) (b0 : Bool), l.foldl (fun b x => b || c x) b0 = (b0 || l.any c)
  | [], b0 => by simp
  | x :: l, b0 => by
    rw [List.foldl_cons, foldl_or_any c l (b0 || c x)]
    simp [Bool.or_assoc]

theorem foldl_filter_eq (p : α → Bool) (g : β → α → β) :
    ∀ (l : List α) (init : β),
      l.foldl (fun s x => if p x then g s x else s) init = (l.filter p).foldl g init
  | [], _ => rfl
  | x :: l, init => by
    rw [List.foldl_cons, List.filter_cons]
    by_cases hx : p x
    · simp only [hx, if_true]
      rw [List.foldl_cons]
      exact foldl_filter_eq p g l (g init x)
    · simp only [hx, if_false, Bool.false_eq_true]
      exact foldl_filter_eq p g l init

theorem sum_map_eq_sum_get (f : α → M) (l : List α) :
    (l.map f).sum = ∑ i : Fin l.length, f (l.get i) := by
  rw [Fin.sum_univ_def]
  congr 1
  rw [show (fun i => f (l.get i)) = f ∘ l.get from rfl, ← List.map_map,
    List.finRange_map_get]

theorem sum_map_filter_ite (p : α → Bool) (f : α → M) :
    ∀ (l : List α), ((l.filter p).map f).sum = (l.map fun x => if p x then f x else 0).sum
  | [] => by simp
  | x :: l => by
    rw [List.filter_cons]
    by_cases hx : p x
    · simp only [hx, if_true]
      rw [List.map_cons, List.sum_cons, List.map_cons, List.sum_cons,
        sum_map_filter_ite p f l, if_pos hx]
    · simp only [hx, if_false, Bool.false_eq_true]
      rw [sum_map_filter_ite p f l, List.map_cons, List.sum_cons, if_neg, zero_add]
      simp [hx]

end FoldLemmas

/-- Sum over the upper-triangular pair list equals the double sum over i < j. -/
theorem sum_map_upperPairs {M : Type} [AddCommMonoid M] (n : ℕ) (c : Fin n × Fin n → M) :
    ((upperPairs n).map c).sum
      = ∑ i : Fin n, ∑ j ∈ Finset.univ.filter (fun j => i < j), c (i, j) := by
  have hflat : upperPairs n
      = ((List.finRange n).map fun i =>
          ((List.finRange n).filter fun j => i < j).map fun j => (i, j)).flatten := rfl
  rw [hflat, List.map_flatten, List.map_map, List.sum_flatten, List.map_map]
  rw [Fin.sum_univ_def (fun i => ∑ j ∈ Finset.univ.filter (fun j => i < j), c (i, j))]
  congr 1
  apply List.map_congr_left
  intro i _
  simp only [Function.comp_apply, Function.comp]
  rw [List.map_map]
  rw [show (c ∘ fun j => (i, j)) = fun j => c (i, j) from rfl]
  rw [sum_map_filter_ite (fun j => decide (i < j)) (fun j => c (i, j)),
    Finset.sum_filter, Fin.sum_univ_def (fun j => if i < j then c (i, j) else 0)]
  congr 1
  simp

/-- C5: for every StabilityMetrics value, evaluateStabilityStatus pushes one
issue per violated threshold — energy deviation > 0.1, virial ratio > 2.0 or
< 0.4, max pairwise distance > 100, symmetry score < 0.8 — and returns
'critical' when 2 or more are violated, 'warning' when exactly 1 is violated,
and 'stable' when none are violated. -/
theorem evaluateStabilityStatus_counts_violations (m : StabilityMetrics) :
    (evaluateStabilityStatus m).2.length = violationCount m
    ∧ ((evaluateStabilityStatus m).1 = StabilityLevel.critical ↔ 2 ≤ violationCount m)
    ∧ ((evaluateStabilityStatus m).1 = StabilityLevel.warning ↔ violationCount m = 1)
    ∧ ((evaluateStabilityStatus m).1 = StabilityLevel.stable ↔ violationCount m = 0) := by
  unfold evaluateStabilityStatus violationCount
  by_cases h1 : m.energyDeviation > 0.1 <;>
  by_cases h2 : StabilityMetrics.virialRatio m > 2.0 <;>
  by_cases h3 : StabilityMetrics.virialRatio m < 0.4 <;>
  by_cases h4 : m.maxDistance > 100 <;>
  by_cases h5 : m.symmetryScore < 0.8 <;>
  simp [h1, h2, h3, h4, h5]

/-- C7: applyParameterOverrides updates exactly the config fields present in
the override object; every absent field keeps its prior value (in particular,
an override carrying only timeStep leaves G and softening unchanged). -/
theorem applyParameterOverrides_merges_only_given {n : ℕ}
    (e : PhysicsEngine.State n) (o : PartialConfig) :
    ((PhysicsEngine.applyParameterOverrides e o).config.timeStep
        = o.timeStep.getD e.config.timeStep)
    ∧ ((PhysicsEngine.applyParameterOverrides e o).config.softening
        = o.softening.getD e.config.softening)
    ∧ ((PhysicsEngine.applyParameterOverrides e o).config.G
        = o.G.getD e.config.G)
    ∧ ((PhysicsEngine.applyParameterOverrides e o).config.energySampleInterval
        = (match o.energySampleInterval with
           | some v => some v
           | none => e.config.energySampleInterval))
    ∧ ((PhysicsEngine.applyParameterOverrides e o).config.controller
        = (match o.controller with
           | some c0 => some c0
           | none => e.config.controller)) := by
  cases o with
  | mk oG oT oS oE oC =>
    rcases oG with _ | g <;> rcases oT with _ | t <;> rcases oS with _ | s <;>
      rcases oE with _ | v <;> rcases oC with _ | c <;>
      simp [PhysicsEngine.applyParameterOverrides]

/-- C4 counterexample: a second call to setStabilityController does NOT reset
the recorded baseline.  c4Engine holds the baseline −1 recorded at the first
attachment, while its current total energy is 0 (after a zero-G setConfig);
the claim, as stated, demands that re-attaching resets the baseline to the
current total energy, but the source's `if (!this.initialEnergy)` guard skips
the assignment. -/
theorem setStabilityController_no_reset_counterexample :
    (PhysicsEngine.setStabilityController id c4Engine none).initialEnergy
      ≠ some (PhysicsEngine.calculateEnergyStats 2 id c4Engine.config
          c4Engine.bodies).totalEnergy := by
  simp [c4Engine, PhysicsEngine.setConfig, PhysicsEngine.setStabilityController,
    PhysicsEngine.create, jsFalsy, PhysicsEngine.calculateEnergyStats,
    PhysicsEngine.kineticAndPlanet, PhysicsEngine.energyPairStep,
    show upperPairs 2 = [(0, 1)] from by decide,
    show List.finRange 2 = [0, 1] from by decide,
    twoBodies, plainConfig, ltInf, infLtTwo]

/-- C4 amended: every call to setStabilityController stores the controller;
it records the baseline to the current total energy exactly when the
previously recorded baseline is JS-falsy (absent or 0), and otherwise keeps
the existing nonzero baseline unchanged. -/
theorem setStabilityController_baseline {n : ℕ} (sqrt : ℚ → ℚ)
    (e : PhysicsEngine.State n) (c : Option StabCtrl) :
    (PhysicsEngine.setStabilityController sqrt e c).stabilityController = c
    ∧ (jsFalsy e.initialEnergy = true →
        (PhysicsEngine.setStabilityController sqrt e c).initialEnergy
          = some (PhysicsEngine.calculateEnergyStats n sqrt e.config e.bodies).totalEnergy)
    ∧ (jsFalsy e.initialEnergy = false →
        (PhysicsEngine.setStabilityController sqrt e c).initialEnergy
          = e.initialEnergy) := by
  unfold PhysicsEngine.setStabilityController
  by_cases h : jsFalsy e.initialEnergy = true <;> simp [h]

/-- Witness for the amended C4 theorem at the concrete engine c4Engine, whose
recorded baseline is nonzero. -/
theorem setStabilityController_baseline_witness :
    jsFalsy c4Engine.initialEnergy = false
    ∧ (PhysicsEngine.setStabilityController id c4Engine none).initialEnergy
        = c4Engine.initialEnergy := by
  have hfalsy : jsFalsy c4Engine.initialEnergy = false := by
    simp [c4Engine, PhysicsEngine.setConfig, PhysicsEngine.setStabilityController,
      PhysicsEngine.create, jsFalsy, PhysicsEngine.calculateEnergyStats,
      PhysicsEngine.kineticAndPlanet, PhysicsEngine.energyPairStep,
      show upperPairs 2 = [(0, 1)] from by decide,
      show List.finRange 2 = [0, 1] from by decide,
      twoBodies, plainConfig, ltInf, infLtTwo]
  exact ⟨hfalsy, (setStabilityController_baseline id c4Engine none).2.2 hfalsy⟩

/-- Helper: bounds of the score formula `1 / (1 + stdDev / (avgDist + 0.001))`
for nonnegative standard deviation and mean. -/
theorem symmetry_score_formula_bounds (stdDev avgDist : ℚ)
    (hstd : 0 ≤ stdDev) (havg : 0 ≤ avgDist) :
    0 ≤ 1 / (1 + stdDev / (avgDist + 0.001))
    ∧ 1 / (1 + stdDev / (avgDist + 0.001)) ≤ 1 := by
  have hpos : (0 : ℚ) < avgDist + 0.001 := by
    have : (0 : ℚ) < 0.001 := by norm_num
    linarith
  have hdiv : 0 ≤ stdDev / (avgDist + 0.001) := div_nonneg hstd hpos.le
  have hdenpos : (0 : ℚ) < 1 + stdDev / (avgDist + 0.001) := by linarith
  refine ⟨div_nonneg zero_le_one hdenpos.le, ?_⟩
  rw [div_le_one hdenpos]
  linarith

/-- C6: the symmetry score lies in [0, 1] for every body list — for any sqrt
function that is nonnegative on nonnegative inputs, as Math.sqrt is on the
nonnegative arguments produced here — and equals exactly 1 whenever the list
has fewer than 3 bodies. -/
theorem computeSymmetryScore_bounds (sqrt : ℚ → ℚ) (bodies : List Body)
    (hsqrt : ∀ q : ℚ, 0 ≤ q → 0 ≤ sqrt q) :
    0 ≤ computeSymmetryScore sqrt bodies
    ∧ computeSymmetryScore sqrt bodies ≤ 1
    ∧ (bodies.length < 3 → computeSymmetryScore sqrt bodies = 1) := by
  by_cases hn : bodies.length < 3
  · refine ⟨?_, ?_, fun _ => ?_⟩ <;> simp [computeSymmetryScore, hn]
  · have hmain : 0 ≤ computeSymmetryScore sqrt bodies
        ∧ computeSymmetryScore sqrt bodies ≤ 1 := by
      simp only [computeSymmetryScore, hn, if_false]
      set D := bodies.map fun body =>
        computeDistance sqrt body.position (computeCentroid bodies) with hDdef
      set S := D.foldl (fun a b => a + b) 0 with hSdef
      set A := S / (bodies.length : ℚ) with hAdef
      set V := D.foldl (fun sum d => sum + (d - A) ^ 2) 0 / (bodies.length : ℚ)
        with hVdef
      have hlen : (0 : ℚ) < (bodies.length : ℚ) := by
        have h3 : 3 ≤ bodies.length := not_lt.mp hn
        exact_mod_cast Nat.lt_of_lt_of_le (by norm_num) h3
      have hDnn : ∀ d ∈ D, 0 ≤ d := by
        intro d hd
        rw [hDdef, List.mem_map] at hd
        obtain ⟨b, _, rfl⟩ := hd
        apply hsqrt
        have h1 := mul_self_nonneg (b.position.x - (computeCentroid bodies).x)
        have h2 := mul_self_nonneg (b.position.y - (computeCentroid bodies).y)
        have h3 := mul_self_nonneg (b.position.z - (computeCentroid bodies).z)
        linarith
      have hSnn : 0 ≤ S := by
        rw [hSdef]
        have hfold : D.foldl (fun a b => a + b) 0 = 0 + (D.map id).sum :=
          foldl_add_eq id D 0
        rw [hfold, List.map_id, zero_add]
        exact List.sum_nonneg hDnn
      have hAnn : 0 ≤ A := hAdef ▸ div_nonneg hSnn hlen.le
      have hVnn : 0 ≤ V := by
        rw [hVdef]
        apply div_nonneg _ hlen.le
        have hfold : D.foldl (fun sum d => sum + (d - A) ^ 2) 0
            = 0 + (D.map fun d => (d - A) ^ 2).sum :=
          foldl_add_eq (fun d => (d - A) ^ 2) D 0
        rw [hfold, zero_add]
        apply List.sum_nonneg
        intro q hq
        rw [List.mem_map] at hq
        obtain ⟨d, _, rfl⟩ := hq
        exact sq_nonneg _
      exact symmetry_score_formula_bounds (sqrt V) A (hsqrt V hVnn) hAnn
    exact ⟨hmain.1, hmain.2, fun h => absurd h hn⟩

/-- Witness for C6 at a concrete three-body list, with the identity function
as the (nonnegative-on-nonnegatives) square root. -/
theorem computeSymmetryScore_bounds_witness :
    0 ≤ computeSymmetryScore (fun q => q) threeBodies
    ∧ computeSymmetryScore (fun q => q) threeBodies ≤ 1
    ∧ (threeBodies.length < 3 → computeSymmetryScore (fun q => q) threeBodies = 1) :=
  computeSymmetryScore_bounds (fun q => q) threeBodies (fun _ h => h)

/-- The nested index loop `for i, for j > i` over a list, accumulating by
addition, equals the double indexed sum. -/
theorem pairsFold_add_eq {M : Type} [AddCommMonoid M] (g : Body → Body → M) :
    ∀ (l : List Body) (s0 : M),
      pairsFold (fun s a b => s + g a b) s0 l
        = s0 + ∑ i : Fin l.length, ∑ j ∈ Finset.univ.filter (fun j => i < j),
            g (l.get i) (l.get j)
  | [], s0 => by simp [pairsFold]
  | b :: rest, s0 => by
    have hstep : pairsFold (fun s a b2 => s + g a b2) s0 (b :: rest)
        = pairsFold (fun s a b2 => s + g a b2)
            (rest.foldl (fun s2 b2 => s2 + g b b2) s0) rest := rfl
    rw [hstep, pairsFold_add_eq g rest _, foldl_add_eq (g b) rest s0]
    have hsum : (∑ i : Fin (b :: rest).length,
          ∑ j ∈ Finset.univ.filter (fun j => i < j),
            g ((b :: rest).get i) ((b :: rest).get j))
        = (rest.map (g b)).sum
          + ∑ i : Fin rest.length, ∑ j ∈ Finset.univ.filter (fun j => i < j),
              g (rest.get i) (rest.get j) := by
      show (∑ i : Fin (rest.length + 1), ∑ j ∈ Finset.univ.filter (fun j => i < j),
          g ((b :: rest).get i) ((b :: rest).get j)) = _
      rw [Fin.sum_univ_succ]
      congr 1
      · rw [Finset.sum_filter, Fin.sum_univ_succ, sum_map_eq_sum_get (g b) rest]
        simp [Fin.succ_pos]
      · apply Finset.sum_congr rfl
        intro i _
        rw [Finset.sum_filter, Finset.sum_filter, Fin.sum_univ_succ]
        simp [Fin.succ_lt_succ_iff]
    rw [hsum, add_assoc]

/-- Subtraction variant of pairsFold_add_eq, matching the `potential -= term`
accumulation of the source. -/
theorem pairsFold_sub_eq (g : Body → Body → ℚ) (l : List Body) (s0 : ℚ) :
    pairsFold (fun s a b => s - g a b) s0 l
      = s0 - ∑ i : Fin l.length, ∑ j ∈ Finset.univ.filter (fun j => i < j),
          g (l.get i) (l.get j) := by
  have h : (fun (s : ℚ) (a b : Body) => s - g a b)
      = fun s a b => s + (-(g a b)) := by
    funext s a b; ring
  rw [h, pairsFold_add_eq (fun a b => -(g a b)) l s0]
  simp [sub_eq_add_neg]

/-- The potential component of the pair-loop accumulator decreases by the
pair's term regardless of the planet/habitable bookkeeping. -/
theorem energyPairStep_fst {n : ℕ} (G : ℚ) (sqrt : ℚ → ℚ) (bodies : Fin n → Body)
    (planet : Option (Fin n)) (s : ℚ × Bool × Option ℚ) (p : Fin n × Fin n) :
    (PhysicsEngine.energyPairStep n G sqrt bodies planet s p).1
      = s.1 - G * (bodies p.1).mass * (bodies p.2).mass
          / sqrt (((bodies p.1).position.x - (bodies p.2).position.x)
                * ((bodies p.1).position.x - (bodies p.2).position.x)
              + ((bodies p.1).position.y - (bodies p.2).position.y)
                * ((bodies p.1).position.y - (bodies p.2).position.y)
              + ((bodies p.1).position.z - (bodies p.2).position.z)
                * ((bodies p.1).position.z - (bodies p.2).position.z)) := by
  unfold PhysicsEngine.energyPairStep
  cases planet with
  | none => rfl
  | some pl =>
      dsimp only
      split
      · rfl
      · rfl

/-- C1 counterexample: for two unit-mass bodies at unsoftened separation 2
(squared separation 4, with sqrtFour agreeing with Math.sqrt there), the
analyzer's computeEnergy reports potential −1/2 = −G·m₁·m₂/|r₁−r₂|, while the
spec's stated formula −G·m₁·m₂/|r₁−r₂|² gives −1/4; the claim's equation is
false on the code. -/
theorem computeEnergy_inverse_square_counterexample :
    (computeEnergy sqrtFour c1Bodies).potentialEnergy = -(1 / 2)
    ∧ specSquaredPotential c1Bodies = -(1 / 4)
    ∧ (computeEnergy sqrtFour c1Bodies).potentialEnergy
        ≠ specSquaredPotential c1Bodies := by
  refine ⟨?_, ?_, ?_⟩ <;>
    simp [computeEnergy, specSquaredPotential, pairsFold, c1Bodies, sqrtFour,
      G_CONST] <;> norm_num

/-- C1 amended: in both the stability analyzer's computeEnergy and the first
engine version's calculateEnergyStats, the kinetic energy is
Σ ½·m·|v|² and the potential energy is the sum over unordered pairs i<j of
−G·m_i·m_j divided by the unsoftened separation |r_i−r_j| to the FIRST power
(the separation being Math.sqrt of the squared distance; the softening length
does not appear). -/
theorem energy_uses_first_power_distance (sqrt : ℚ → ℚ) (bodies : List Body)
    {n : ℕ} (cfg : SimulationConfig) (fbodies : Fin n → Body) :
    ((computeEnergy sqrt bodies).kineticEnergy
      = ∑ i : Fin bodies.length, 0.5 * (bodies.get i).mass
          * ((bodies.get i).velocity.x ^ 2 + (bodies.get i).velocity.y ^ 2
              + (bodies.get i).velocity.z ^ 2))
    ∧ ((computeEnergy sqrt bodies).potentialEnergy
      = -∑ i : Fin bodies.length, ∑ j ∈ Finset.univ.filter (fun j => i < j),
          G_CONST * (bodies.get i).mass * (bodies.get j).mass
            / sqrt (((bodies.get i).position.x - (bodies.get j).position.x)
                  * ((bodies.get i).position.x - (bodies.get j).position.x)
                + ((bodies.get i).position.y - (bodies.get j).position.y)
                  * ((bodies.get i).position.y - (bodies.get j).position.y)
                + ((bodies.get i).position.z - (bodies.get j).position.z)
                  * ((bodies.get i).position.z - (bodies.get j).position.z)))
    ∧ ((PhysicsEngine.calculateEnergyStats n sqrt cfg fbodies).kineticEnergy
      = ∑ i : Fin n, 0.5 * (fbodies i).mass
          * ((fbodies i).velocity.x ^ 2 + (fbodies i).velocity.y ^ 2
              + (fbodies i).velocity.z ^ 2))
    ∧ ((PhysicsEngine.calculateEnergyStats n sqrt cfg fbodies).potentialEnergy
      = -∑ i : Fin n, ∑ j ∈ Finset.univ.filter (fun j => i < j),
          cfg.G * (fbodies i).mass * (fbodies j).mass
            / sqrt (((fbodies i).position.x - (fbodies j).position.x)
                  * ((fbodies i).position.x - (fbodies j).position.x)
                + ((fbodies i).position.y - (fbodies j).position.y)
                  * ((fbodies i).position.y - (fbodies j).position.y)
                + ((fbodies i).position.z - (fbodies j).position.z)
                  * ((fbodies i).position.z - (fbodies j).position.z))) := by
  refine ⟨?_, ?_, ?_, ?_⟩
  · -- analyzer kinetic: the loop is a plain additive fold
    have h := foldl_add_eq (fun b : Body => 0.5 * b.mass
        * (b.velocity.x ^ 2 + b.velocity.y ^ 2 + b.velocity.z ^ 2)) bodies 0
    rw [zero_add, sum_map_eq_sum_get] at h
    exact h
  · -- analyzer potential: the pair loop subtracts each pair's term
    have h := pairsFold_sub_eq (fun b1 b2 => G_CONST * b1.mass * b2.mass
        / sqrt ((b1.position.x - b2.position.x) * (b1.position.x - b2.position.x)
            + (b1.position.y - b2.position.y) * (b1.position.y - b2.position.y)
            + (b1.position.z - b2.position.z) * (b1.position.z - b2.position.z)))
      bodies 0
    rw [zero_sub] at h
    exact h
  · -- engine kinetic: first component of the kineticAndPlanet fold
    have h := foldl_fst_eq
      (fun (s : ℚ × Option (Fin n)) (i : Fin n) =>
        (s.1 + 0.5 * (fbodies i).mass
          * ((fbodies i).velocity.x ^ 2 + (fbodies i).velocity.y ^ 2
              + (fbodies i).velocity.z ^ 2),
         if (fbodies i).isStar then s.2 else some i))
      (fun (a : ℚ) (i : Fin n) => a + 0.5 * (fbodies i).mass
          * ((fbodies i).velocity.x ^ 2 + (fbodies i).velocity.y ^ 2
              + (fbodies i).velocity.z ^ 2))
      (fun _ _ => rfl) (List.finRange n) (0, none)
    have h2 := foldl_add_eq (fun i : Fin n => 0.5 * (fbodies i).mass
        * ((fbodies i).velocity.x ^ 2 + (fbodies i).velocity.y ^ 2
            + (fbodies i).velocity.z ^ 2)) (List.finRange n) 0
    rw [h2, zero_add, ← Fin.sum_univ_def] at h
    exact h
  · -- engine potential: first component of the energyPairStep fold
    have h := foldl_fst_eq
      (PhysicsEngine.energyPairStep n cfg.G sqrt fbodies
        (PhysicsEngine.kineticAndPlanet n fbodies).2)
      (fun (a : ℚ) (p : Fin n × Fin n) => a - cfg.G * (fbodies p.1).mass * (fbodies p.2).mass
          / sqrt (((fbodies p.1).position.x - (fbodies p.2).position.x)
                * ((fbodies p.1).position.x - (fbodies p.2).position.x)
              + ((fbodies p.1).position.y - (fbodies p.2).position.y)
                * ((fbodies p.1).position.y - (fbodies p.2).position.y)
              + ((fbodies p.1).position.z - (fbodies p.2).position.z)
                * ((fbodies p.1).position.z - (fbodies p.2).position.z)))
      (fun s p => energyPairStep_fst cfg.G sqrt fbodies _ s p)
      (upperPairs n) (0, false, none)
    have h2 := foldl_sub_eq (fun p : Fin n × Fin n =>
        cfg.G * (fbodies p.1).mass * (fbodies p.2).mass
          / sqrt (((fbodies p.1).position.x - (fbodies p.2).position.x)
                * ((fbodies p.1).position.x - (fbodies p.2).position.x)
              + ((fbodies p.1).position.y - (fbodies p.2).position.y)
                * ((fbodies p.1).position.y - (fbodies p.2).position.y)
              + ((fbodies p.1).position.z - (fbodies p.2).position.z)
                * ((fbodies p.1).position.z - (fbodies p.2).position.z)))
      (upperPairs n) 0
    rw [h2, zero_sub, sum_map_upperPairs] at h
    exact h

/-- Pointwise-additive fold: when every loop iteration adds a per-entry
contribution to the array, the final array entry is the initial entry plus the
sum of contributions. -/
theorem foldl_apply_add {α ι M : Type} [AddCommMonoid M]
    (f : (ι → M) → α → (ι → M)) (c : α → ι → M) :
    ∀ (l : List α), (∀ acc x, x ∈ l → ∀ k, f acc x k = acc k + c x k) →
      ∀ (acc0 : ι → M) (k : ι),
        (l.foldl f acc0) k = acc0 k + ((l.map fun x => c x k).sum)
  | [], _, acc0, k => by simp
  | x :: l, h, acc0, k => by
    rw [List.foldl_cons,
      foldl_apply_add f c l (fun acc y hy => h acc y (List.mem_cons_of_mem x hy)) (f acc0 x) k,
      h acc0 x (List.mem_cons_self x l) k]
    simp [add_assoc]

/-- One iteration of the calculateAccelerations inner loop adds accContrib to
every entry of the array (the two indices of a pair from the upper-triangular
loop are distinct). -/
theorem accPairUpdate_apply {n : ℕ} (G softening : ℚ) (sqrt : ℚ → ℚ)
    (state : Fin n → Body) (acc : Fin n → Vec3) (p : Fin n × Fin n)
    (hp : p.1 ≠ p.2) (k : Fin n) :
    PhysicsEngine.accPairUpdate n G softening sqrt state acc p k
      = acc k + accContrib n G softening sqrt state p k := by
  unfold PhysicsEngine.accPairUpdate accContrib
  dsimp only
  by_cases h1 : k = p.1
  · have h2 : k ≠ p.2 := by rw [h1]; exact hp
    subst h1
    rw [Function.update_noteq h2, Function.update_same, if_pos rfl]
    simp [Vec3.add_def]
  · by_cases h2 : k = p.2
    · subst h2
      rw [Function.update_same, Function.update_noteq (Ne.symm hp),
        if_neg h1, if_pos rfl]
      simp only [Vec3.add_def, Vec3.mk.injEq]
      refine ⟨?_, ?_, ?_⟩ <;> ring
    · rw [Function.update_noteq h2, Function.update_noteq h1, if_neg h1, if_neg h2]
      simp

/-- The pair (i,j) contributes exactly the specified formula term to body i. -/
theorem accContrib_fst {n : ℕ} (G softening : ℚ) (sqrt : ℚ → ℚ)
    (state : Fin n → Body) (i j : Fin n) :
    accContrib n G softening sqrt state (i, j) i
      = accelFormula n G softening sqrt state i j := by
  unfold accContrib accelFormula
  dsimp only
  rw [if_pos rfl]
  simp only [Vec3.smul, Vec3.sub, Vec3.mk.injEq]
  refine ⟨?_, ?_, ?_⟩ <;> ring

/-- The pair (i,j) contributes exactly the specified formula term (with the
roles swapped) to body j. -/
theorem accContrib_snd {n : ℕ} (G softening : ℚ) (sqrt : ℚ → ℚ)
    (state : Fin n → Body) (i j : Fin n) (hij : i ≠ j) :
    accContrib n G softening sqrt state (i, j) j
      = accelFormula n G softening sqrt state j i := by
  unfold accContrib accelFormula
  dsimp only
  rw [if_neg (Ne.symm hij), if_pos rfl]
  simp only [Vec3.smul, Vec3.sub, Vec3.mk.injEq]
  refine ⟨?_, ?_, ?_⟩ <;> ring_nf

/-- The pair (i,j) contributes nothing to bodies other than i and j. -/
theorem accContrib_other {n : ℕ} (G softening : ℚ) (sqrt : ℚ → ℚ)
    (state : Fin n → Body) (i j k : Fin n) (h1 : k ≠ i) (h2 : k ≠ j) :
    accContrib n G softening sqrt state (i, j) k = 0 := by
  unfold accContrib
  dsimp only
  rw [if_neg h1, if_neg h2]

/-- Regrouping: summing the per-pair contributions over the upper-triangular
pairs gives, for each body k, the sum of formula terms over all other
bodies. -/
theorem sum_accContrib_eq {n : ℕ} (G softening : ℚ) (sqrt : ℚ → ℚ)
    (state : Fin n → Body) (k : Fin n) :
    (∑ i : Fin n, ∑ j ∈ Finset.univ.filter (fun j => i < j),
        accContrib n G softening sqrt state (i, j) k)
      = ∑ j ∈ Finset.univ.erase k, accelFormula n G softening sqrt state k j := by
  rw [← Finset.add_sum_erase Finset.univ _ (Finset.mem_univ k)]
  have hTk : (∑ j ∈ Finset.univ.filter (fun j => k < j),
        accContrib n G softening sqrt state (k, j) k)
      = ∑ j ∈ Finset.univ.filter (fun j => k < j),
          accelFormula n G softening sqrt state k j :=
    Finset.sum_congr rfl fun j _ => accContrib_fst G softening sqrt state k j
  have hTi : ∀ i ∈ Finset.univ.erase k,
      (∑ j ∈ Finset.univ.filter (fun j => i < j),
          accContrib n G softening sqrt state (i, j) k)
        = if i < k then accelFormula n G softening sqrt state k i else 0 := by
    intro i hi
    have hik : i ≠ k := Finset.ne_of_mem_erase hi
    by_cases hlt : i < k
    · rw [if_pos hlt]
      rw [Finset.sum_eq_single_of_mem k (by simp [hlt])]
      · exact accContrib_snd G softening sqrt state i k hik
      · intro j _ hjk
        exact accContrib_other G softening sqrt state i j k (Ne.symm hik) (Ne.symm hjk)
    · rw [if_neg hlt]
      apply Finset.sum_eq_zero
      intro j hj
      rw [Finset.mem_filter] at hj
      apply accContrib_other G softening sqrt state i j k (Ne.symm hik)
      intro hkj
      exact hlt (hkj ▸ hj.2)
  rw [hTk, Finset.sum_congr rfl hTi, ← Finset.sum_filter]
  have h1 : Finset.univ.filter (fun j => k < j)
      = (Finset.univ.erase k).filter (fun j => k < j) := by
    ext j
    simp only [Finset.mem_filter, Finset.mem_erase, Finset.mem_univ, true_and,
      and_true]
    constructor
    · intro h; exact ⟨ne_of_gt h, h⟩
    · intro h; exact h.2
  have h2 : (Finset.univ.erase k).filter (fun i => i < k)
      = (Finset.univ.erase k).filter (fun j => ¬ k < j) := by
    ext j
    simp only [Finset.mem_filter, Finset.mem_erase, Finset.mem_univ, and_true,
      true_and]
    constructor
    · rintro ⟨hjk, hlt⟩
      exact ⟨hjk, not_lt.mpr hlt.le⟩
    · rintro ⟨hjk, hnlt⟩
      exact ⟨hjk, lt_of_le_of_ne (not_lt.mp hnlt) hjk⟩
  rw [h1, h2, Finset.sum_filter_add_sum_filter_not (Finset.univ.erase k)
    (fun j => k < j) (accelFormula n G softening sqrt state k)]

/-- C2: calculateAccelerations writes, for every body i, exactly the sum over
j ≠ i of `G·m_j·(pos_j − pos_i)/(|pos_j − pos_i|² + ε²)^1.5` into the
caller-supplied output array; the array is overwritten, so the previous
contents do not influence the result. -/
theorem calculateAccelerations_spec {n : ℕ} (cfg : SimulationConfig)
    (sqrt : ℚ → ℚ) (state : Fin n → Body) (outAcc outAcc2 : Fin n → Vec3)
    (hsoft : 0 ≤ cfg.softening) (i : Fin n) :
    PhysicsEngine.calculateAccelerations n cfg sqrt state outAcc i
      = ∑ j ∈ Finset.univ.erase i,
          accelFormula n cfg.G cfg.softening sqrt state i j
    ∧ PhysicsEngine.calculateAccelerations n cfg sqrt state outAcc
      = PhysicsEngine.calculateAccelerations n cfg sqrt state outAcc2 := by
  constructor
  · unfold PhysicsEngine.calculateAccelerations
    rw [foldl_apply_add (PhysicsEngine.accPairUpdate n cfg.G cfg.softening sqrt state)
      (accContrib n cfg.G cfg.softening sqrt state) (upperPairs n)
      (fun acc p hp k => accPairUpdate_apply cfg.G cfg.softening sqrt state acc p
        (ne_of_lt (mem_upperPairs.mp hp)) k) (fun _ => ⟨0, 0, 0⟩) i]
    rw [sum_map_upperPairs n (fun p => accContrib n cfg.G cfg.softening sqrt state p i)]
    have h0 : (⟨0, 0, 0⟩ : Vec3) = 0 := rfl
    rw [h0, zero_add, sum_accContrib_eq]
  · rfl

/-- Witness for C2 at two concrete bodies, softening 0, with two different
previous output-buffer contents. -/
theorem calculateAccelerations_spec_witness :
    (0 : ℚ) ≤ plainConfig.softening
    ∧ (PhysicsEngine.calculateAccelerations 2 plainConfig id twoBodies
          (fun _ => ⟨5, 5, 5⟩) 0
        = ∑ j ∈ Finset.univ.erase 0,
            accelFormula 2 plainConfig.G plainConfig.softening id twoBodies 0 j
      ∧ PhysicsEngine.calculateAccelerations 2 plainConfig id twoBodies
          (fun _ => ⟨5, 5, 5⟩)
        = PhysicsEngine.calculateAccelerations 2 plainConfig id twoBodies
          (fun _ => ⟨7, 7, 7⟩)) :=
  ⟨by norm_num [plainConfig],
   calculateAccelerations_spec plainConfig id twoBodies (fun _ => ⟨5, 5, 5⟩)
     (fun _ => ⟨7, 7, 7⟩) (by norm_num [plainConfig]) 0⟩

/-- C8: in an RK4 stage evaluation, when the configured injection function
returns an array, its contribution is added component-wise to the gravity
result exactly when its length equals the body count; on a length mismatch
the stage's velocity-derivative is the gravity evaluator's output alone, and
no error is raised (the definition is total). -/
theorem evaluate_controller_length_guard {n : ℕ} (sqrt : ℚ → ℚ)
    (cfg : SimulationConfig) (currentTime : ℚ) (inputState : Fin n → Body)
    (dt : ℚ) (derivative : Option (DerivativeBuffer n)) (f : CtrlFun)
    (ctl : List Vec3)
    (hctrl : cfg.controller = some f)
    (hf : f (List.ofFn (PhysicsEngine.tempState n inputState dt derivative))
        (currentTime + dt) = some ctl) :
    (PhysicsEngine.evaluate n sqrt cfg currentTime inputState dt derivative).dVel
      = (if ctl.length = n then
          (fun i =>
            let g := PhysicsEngine.calculateAccelerations n cfg sqrt
              (PhysicsEngine.tempState n inputState dt derivative)
              (fun _ => ⟨0, 0, 0⟩) i
            let u := ctl.getD i.val ⟨0, 0, 0⟩
            ⟨g.x + u.x, g.y + u.y, g.z + u.z⟩)
        else PhysicsEngine.calculateAccelerations n cfg sqrt
          (PhysicsEngine.tempState n inputState dt derivative)
          (fun _ => ⟨0, 0, 0⟩)) := by
  unfold PhysicsEngine.evaluate
  rw [hctrl]
  dsimp only
  rw [hf]

/-- Witness for C8: a one-body engine whose injection function returns an
empty (wrong-length) array; the stage derivative is the gravity result
alone. -/
theorem evaluate_controller_length_guard_witness :
    mismatchConfig.controller = some misCtrl
    ∧ misCtrl (List.ofFn (PhysicsEngine.tempState 1 oneBody 0 none)) (0 + 0)
        = some []
    ∧ (PhysicsEngine.evaluate 1 id mismatchConfig 0 oneBody 0 none).dVel
        = (if ([] : List Vec3).length = 1 then
            (fun i =>
              let g := PhysicsEngine.calculateAccelerations 1 mismatchConfig id
                (PhysicsEngine.tempState 1 oneBody 0 none) (fun _ => ⟨0, 0, 0⟩) i
              let u := ([] : List Vec3).getD i.val ⟨0, 0, 0⟩
              ⟨g.x + u.x, g.y + u.y, g.z + u.z⟩)
          else PhysicsEngine.calculateAccelerations 1 mismatchConfig id
            (PhysicsEngine.tempState 1 oneBody 0 none) (fun _ => ⟨0, 0, 0⟩)) :=
  ⟨rfl, rfl,
   evaluate_controller_length_guard id mismatchConfig 0 oneBody 0 none misCtrl []
     rfl rfl⟩

/-- applyParameterOverrides never touches the stats cache. -/
theorem statsCache_applyParameterOverrides {n : ℕ} (e : PhysicsEngine.State n)
    (o : PartialConfig) :
    (PhysicsEngine.applyParameterOverrides e o).statsCache = e.statsCache := by
  unfold PhysicsEngine.applyParameterOverrides
  rcases o with ⟨oG, oT, oS, oE, oC⟩
  rcases oG with _ | g <;> rcases oT with _ | t <;> rcases oS with _ | s <;>
    rcases oE with _ | v <;> rcases oC with _ | c <;> rfl

/-- The pre-step controller phase never touches the stats cache. -/
theorem statsCache_stepHook {n : ℕ} (e : PhysicsEngine.State n) (dt : ℚ) :
    (PhysicsEngine.stepHook e dt).statsCache = e.statsCache := by
  unfold PhysicsEngine.stepHook
  cases hsc : e.stabilityController with
  | none => rfl
  | some ctrl =>
      simp only []
      cases hres : ctrl (List.ofFn e.bodies) e.currentTime dt with
      | none => simp [hres]
      | some res =>
          simp only [hres]
          obtain ⟨po, co⟩ := res
          rcases po with _ | o <;> rcases co with _ | c2 <;>
            simp [statsCache_applyParameterOverrides]

/-- setStabilityController never touches the stats cache. -/
theorem statsCache_setStabilityController {n : ℕ} (sqrt : ℚ → ℚ)
    (e : PhysicsEngine.State n) (c : Option StabCtrl) :
    (PhysicsEngine.setStabilityController sqrt e c).statsCache = e.statsCache := by
  unfold PhysicsEngine.setStabilityController
  dsimp only
  split <;> rfl

/-- A step leaves the stats cache populated when it was populated before. -/
theorem statsCache_step_isSome {n : ℕ} (sqrt : ℚ → ℚ)
    (e : PhysicsEngine.State n) (dt : ℚ)
    (he : e.statsCache.isSome = true) :
    ((PhysicsEngine.step sqrt e dt).statsCache).isSome = true := by
  unfold PhysicsEngine.step
  dsimp only
  split
  · rfl
  · show ((PhysicsEngine.stepHook e dt).statsCache).isSome = true
    rw [statsCache_stepHook]
    exact he

/-- C9: the stats cache is seeded at construction and stays populated through
every public operation, so getStats always has a snapshot to return — a
caller never observes an absent stats value after construction. -/
theorem statsCache_always_populated {n : ℕ} (sqrt : ℚ → ℚ)
    (initialBodies : Fin n → Body) (config : SimulationConfig)
    (ops : List PhysicsEngine.EngineOp) :
    ((ops.foldl (PhysicsEngine.runOp sqrt)
        (PhysicsEngine.create sqrt initialBodies config)).statsCache).isSome
      = true := by
  have hinv : ∀ (l : List PhysicsEngine.EngineOp) (e : PhysicsEngine.State n),
      e.statsCache.isSome = true →
      ((l.foldl (PhysicsEngine.runOp sqrt) e).statsCache).isSome = true := by
    intro l
    induction l with
    | nil => exact fun _ he => he
    | cons op rest ih =>
        intro e he
        rw [List.foldl_cons]
        apply ih
        cases op with
        | step dt => exact statsCache_step_isSome sqrt e dt he
        | setStabilityController c =>
            show ((PhysicsEngine.setStabilityController sqrt e c).statsCache).isSome = true
            rw [statsCache_setStabilityController]
            exact he
        | applyParameterOverrides o =>
            show ((PhysicsEngine.applyParameterOverrides e o).statsCache).isSome = true
            rw [statsCache_applyParameterOverrides]
            exact he
        | setConfig c => exact he
        | setStatsCallback b => exact he
        | getStats =>
            show (((PhysicsEngine.getStats sqrt e).2).statsCache).isSome = true
            cases hsc : e.statsCache with
            | none => simp [PhysicsEngine.getStats, hsc]
            | some s => simp [PhysicsEngine.getStats, hsc]
  exact hinv ops _ rfl

/-- With the stability controller detached, the pre-step phase is a no-op. -/
theorem stepHook_none {n : ℕ} (e : PhysicsEngine.State n) (dt : ℚ)
    (h : e.stabilityController = none) : PhysicsEngine.stepHook e dt = e := by
  unfold PhysicsEngine.stepHook
  rw [h]

/-- With G = 0 a pair contributes nothing to any body. -/
theorem accContrib_zero_G {n : ℕ} (softening : ℚ) (sqrt : ℚ → ℚ)
    (state : Fin n → Body) (p : Fin n × Fin n) (k : Fin n) :
    accContrib n 0 softening sqrt state p k = 0 := by
  unfold accContrib
  dsimp only
  split
  · simp [Vec3.zero_def]
  · split
    · simp [Vec3.zero_def]
    · rfl

/-- With G = 0 the gravity evaluator returns the zero array. -/
theorem calculateAccelerations_zero_G {n : ℕ} (cfg : SimulationConfig)
    (sqrt : ℚ → ℚ) (state : Fin n → Body) (outAcc : Fin n → Vec3)
    (hG : cfg.G = 0) :
    PhysicsEngine.calculateAccelerations n cfg sqrt state outAcc
      = fun _ => (⟨0, 0, 0⟩ : Vec3) := by
  funext k
  unfold PhysicsEngine.calculateAccelerations
  rw [foldl_apply_add (PhysicsEngine.accPairUpdate n cfg.G cfg.softening sqrt state)
    (accContrib n cfg.G cfg.softening sqrt state) (upperPairs n)
    (fun acc p hp k2 => accPairUpdate_apply cfg.G cfg.softening sqrt state acc p
      (ne_of_lt (mem_upperPairs.mp hp)) k2) (fun _ => ⟨0, 0, 0⟩) k]
  have hzero : ((upperPairs n).map fun p =>
      accContrib n cfg.G cfg.softening sqrt state p k).sum = 0 := by
    apply List.sum_eq_zero
    intro x hx
    rw [List.mem_map] at hx
    obtain ⟨p, _, rfl⟩ := hx
    rw [hG]
    exact accContrib_zero_G cfg.softening sqrt state p k
  rw [hzero]
  exact add_zero _

/-- With G = 0 and no injection function, an RK4 stage whose incoming
derivative has zero accelerations returns the base velocities as
position-derivative and zero as velocity-derivative. -/
theorem evaluate_zero_G {n : ℕ} (sqrt : ℚ → ℚ) (cfg : SimulationConfig)
    (t : ℚ) (bodies : Fin n → Body) (dt : ℚ)
    (deriv : Option (DerivativeBuffer n))
    (hG : cfg.G = 0) (hctrl : cfg.controller = none)
    (hd : ∀ d, deriv = some d → d.dVel = fun _ => (⟨0, 0, 0⟩ : Vec3)) :
    PhysicsEngine.evaluate n sqrt cfg t bodies dt deriv
      = { dPos := fun i => (bodies i).velocity
          dVel := fun _ => ⟨0, 0, 0⟩ } := by
  unfold PhysicsEngine.evaluate
  rw [hctrl]
  dsimp only
  have htemp : ∀ i, (PhysicsEngine.tempState n bodies dt deriv i).velocity
      = (bodies i).velocity := by
    intro i
    unfold PhysicsEngine.tempState
    cases hdd : deriv with
    | none => rfl
    | some d =>
        dsimp only
        rw [hd d hdd]
        simp [addScaledVector]
  rw [DerivativeBuffer.mk.injEq]  -- split into the two field equations
  constructor
  · funext i
    exact htemp i
  · exact calculateAccelerations_zero_G cfg sqrt _ _ hG

/-- With G = 0, no injection function and no stability controller, one step
leaves the configuration, the controller slot and every velocity unchanged,
advances the clock by dt, and translates every position by velocity · dt. -/
theorem step_zero_G {n : ℕ} (sqrt : ℚ → ℚ) (e : PhysicsEngine.State n) (dt : ℚ)
    (hG : e.config.G = 0) (hctrl : e.config.controller = none)
    (hstab : e.stabilityController = none) :
    (PhysicsEngine.step sqrt e dt).config = e.config
    ∧ (PhysicsEngine.step sqrt e dt).stabilityController = none
    ∧ (PhysicsEngine.step sqrt e dt).currentTime = e.currentTime + dt
    ∧ ∀ i, (PhysicsEngine.step sqrt e dt).bodies i
        = { e.bodies i with position :=
              ⟨(e.bodies i).position.x + (e.bodies i).velocity.x * dt,
               (e.bodies i).position.y + (e.bodies i).velocity.y * dt,
               (e.bodies i).position.z + (e.bodies i).velocity.z * dt⟩ } := by
  unfold PhysicsEngine.step
  have hk1 : PhysicsEngine.evaluate n sqrt e.config e.currentTime e.bodies 0 none
      = { dPos := fun i => (e.bodies i).velocity
          dVel := fun _ => ⟨0, 0, 0⟩ } :=
    evaluate_zero_G sqrt e.config e.currentTime e.bodies 0 none hG hctrl
      (fun d hd => by cases hd)
  have hmk : ∀ dt2 : ℚ,
      PhysicsEngine.evaluate n sqrt e.config e.currentTime e.bodies dt2
        (some { dPos := fun i => (e.bodies i).velocity
                dVel := fun _ => ⟨0, 0, 0⟩ })
      = { dPos := fun i => (e.bodies i).velocity
          dVel := fun _ => ⟨0, 0, 0⟩ } := by
    intro dt2
    apply evaluate_zero_G sqrt e.config e.currentTime e.bodies dt2 _ hG hctrl
    intro d hd
    rw [← Option.some.inj hd]
  simp only [stepHook_none e dt hstab, hk1, hmk]
  have hbody : ∀ i, PhysicsEngine.rk4Combine n e.bodies
      { dPos := fun i => (e.bodies i).velocity, dVel := fun _ => ⟨0, 0, 0⟩ }
      { dPos := fun i => (e.bodies i).velocity, dVel := fun _ => ⟨0, 0, 0⟩ }
      { dPos := fun i => (e.bodies i).velocity, dVel := fun _ => ⟨0, 0, 0⟩ }
      { dPos := fun i => (e.bodies i).velocity, dVel := fun _ => ⟨0, 0, 0⟩ } dt i
      = { e.bodies i with position :=
            ⟨(e.bodies i).position.x + (e.bodies i).velocity.x * dt,
             (e.bodies i).position.y + (e.bodies i).velocity.y * dt,
             (e.bodies i).position.z + (e.bodies i).velocity.z * dt⟩ } := by
    intro i
    unfold PhysicsEngine.rk4Combine
    dsimp only
    rw [Body.mk.injEq]
    refine ⟨?_, ?_, rfl, rfl, rfl⟩
    · rw [Vec3.mk.injEq]
      refine ⟨?_, ?_, ?_⟩ <;> ring
    · conv_rhs => rw [show (e.bodies i).velocity
        = (⟨(e.bodies i).velocity.x, (e.bodies i).velocity.y,
            (e.bodies i).velocity.z⟩ : Vec3) from rfl]
      rw [Vec3.mk.injEq]
      refine ⟨?_, ?_, ?_⟩ <;> ring
  refine ⟨?_, ?_, ?_, fun i => ?_⟩
  · split <;> rfl
  · split <;> exact hstab
  · split <;> rfl
  · split <;> exact hbody i

/-- C3: with G = 0, no acceleration-injection function and no stability
controller attached, any sequence of step(dt) calls with positive step sizes
leaves every body's velocity unchanged and moves its position in an exact
straight line: initial position plus initial velocity times the total elapsed
simulation time. -/
theorem step_zero_G_straight_line {n : ℕ} (sqrt : ℚ → ℚ)
    (initialBodies : Fin n → Body) (cfg : SimulationConfig)
    (hG : cfg.G = 0) (hctrl : cfg.controller = none)
    (dts : List ℚ) (hdts : ∀ dt ∈ dts, 0 < dt) :
    (dts.foldl (PhysicsEngine.step sqrt)
        (PhysicsEngine.create sqrt initialBodies cfg)).currentTime = dts.sum
    ∧ ∀ i,
      ((dts.foldl (PhysicsEngine.step sqrt)
          (PhysicsEngine.create sqrt initialBodies cfg)).bodies i).velocity
        = (initialBodies i).velocity
      ∧ ((dts.foldl (PhysicsEngine.step sqrt)
          (PhysicsEngine.create sqrt initialBodies cfg)).bodies i).position
        = ⟨(initialBodies i).position.x + (initialBodies i).velocity.x * dts.sum,
           (initialBodies i).position.y + (initialBodies i).velocity.y * dts.sum,
           (initialBodies i).position.z + (initialBodies i).velocity.z * dts.sum⟩ := by
  have key : ∀ (l : List ℚ) (e : PhysicsEngine.State n),
      e.config = cfg → e.stabilityController = none →
      ((l.foldl (PhysicsEngine.step sqrt) e).config = cfg
      ∧ (l.foldl (PhysicsEngine.step sqrt) e).stabilityController = none
      ∧ (l.foldl (PhysicsEngine.step sqrt) e).currentTime = e.currentTime + l.sum
      ∧ ∀ i, ((l.foldl (PhysicsEngine.step sqrt) e).bodies i).velocity
            = (e.bodies i).velocity
        ∧ ((l.foldl (PhysicsEngine.step sqrt) e).bodies i).position
            = ⟨(e.bodies i).position.x + (e.bodies i).velocity.x * l.sum,
               (e.bodies i).position.y + (e.bodies i).velocity.y * l.sum,
               (e.bodies i).position.z + (e.bodies i).velocity.z * l.sum⟩) := by
    intro l
    induction l with
    | nil =>
        intro e hconf hstab
        refine ⟨hconf, hstab, by simp, fun i => ⟨rfl, ?_⟩⟩
        simp
    | cons dt l ih =>
        intro e hconf hstab
        rw [List.foldl_cons]
        obtain ⟨hc, hs, ht, hb⟩ :=
          step_zero_G sqrt e dt (hconf ▸ hG) (hconf ▸ hctrl) hstab
        obtain ⟨rc, rs, rt, rb⟩ := ih (PhysicsEngine.step sqrt e dt)
          (hc.trans hconf) hs
        refine ⟨rc, rs, ?_, fun i => ?_⟩
        · rw [rt, ht, List.sum_cons]
          ring
        · obtain ⟨rv, rp⟩ := rb i
          constructor
          · rw [rv, hb i]
          · rw [rp, hb i]
            dsimp only
            rw [Vec3.mk.injEq, List.sum_cons]
            refine ⟨?_, ?_, ?_⟩ <;> ring
  obtain ⟨_, _, ht, hb⟩ :=
    key dts (PhysicsEngine.create sqrt initialBodies cfg) rfl rfl
  refine ⟨?_, fun i => hb i⟩
  rw [ht]
  exact zero_add _

/-- Witness for C3: one free body stepped twice (dt = 1/2 then dt = 1) under
zero gravity. -/
theorem step_zero_G_straight_line_witness :
    zeroGConfig.G = 0 ∧ zeroGConfig.controller = none
    ∧ (∀ dt ∈ [(1 : ℚ) / 2, 1], 0 < dt)
    ∧ ([(1 : ℚ) / 2, 1].foldl (PhysicsEngine.step (fun q => q))
        (PhysicsEngine.create (fun q => q) oneBody zeroGConfig)).currentTime
      = [(1 : ℚ) / 2, 1].sum
    ∧ ∀ i,
      (([(1 : ℚ) / 2, 1].foldl (PhysicsEngine.step (fun q => q))
          (PhysicsEngine.create (fun q => q) oneBody zeroGConfig)).bodies i).velocity
        = (oneBody i).velocity
      ∧ (([(1 : ℚ) / 2, 1].foldl (PhysicsEngine.step (fun q => q))
          (PhysicsEngine.create (fun q => q) oneBody zeroGConfig)).bodies i).position
        = ⟨(oneBody i).position.x + (oneBody i).velocity.x * [(1 : ℚ) / 2, 1].sum,
           (oneBody i).position.y + (oneBody i).velocity.y * [(1 : ℚ) / 2, 1].sum,
           (oneBody i).position.z + (oneBody i).velocity.z * [(1 : ℚ) / 2, 1].sum⟩ := by
  have hdts : ∀ dt ∈ [(1 : ℚ) / 2, 1], 0 < dt := by
    intro dt h
    rw [List.mem_cons, List.mem_cons] at h
    rcases h with rfl | h
    · norm_num
    · rcases h with rfl | h
      · norm_num
      · exact absurd h (List.not_mem_nil dt)
  have h := step_zero_G_straight_line (fun q => q) oneBody zeroGConfig rfl rfl
    [(1 : ℚ) / 2, 1] hdts
  exact ⟨rfl, rfl, hdts, h.1, h.2⟩

/-- The running-minimum update always yields a value. -/
theorem minU_ne_none (m : Option ℚ) (d : ℚ) : minU m d ≠ none := by
  unfold minU ltInf
  cases m with
  | none => simp
  | some v =>
      by_cases h : d < v <;> simp [h]

/-- Characterization of the running-minimum fold: it is none only for an empty
run, and any produced value is a member that bounds every element (and the
seed) from below. -/
theorem foldl_minU_spec :
    ∀ (l : List ℚ) (m0 : Option ℚ),
      (l.foldl minU m0 = none ↔ (l = [] ∧ m0 = none))
      ∧ ∀ v, l.foldl minU m0 = some v →
          ((v ∈ l ∨ m0 = some v) ∧ (∀ d ∈ l, v ≤ d) ∧ ∀ w, m0 = some w → v ≤ w)
  | [], m0 => by
    refine ⟨by simp, fun v hv => ⟨Or.inr hv, by simp, fun w hw => ?_⟩⟩
    rw [List.foldl_nil] at hv
    rw [hv] at hw
    exact le_of_eq (Option.some.inj hw)
  | d :: l, m0 => by
    rw [List.foldl_cons]
    obtain ⟨hnone, hsome⟩ := foldl_minU_spec l (minU m0 d)
    constructor
    · rw [hnone]
      simp [minU_ne_none m0 d]
    · intro v hv
      obtain ⟨hmem, hbound, hseed⟩ := hsome v hv
      by_cases hlt : ltInf d m0 = true
      · have hmin : minU m0 d = some d := by unfold minU; rw [hlt]; rfl
        rw [hmin] at hmem hseed
        have hvd : v ≤ d := hseed d rfl
        refine ⟨?_, ?_, ?_⟩
        · rcases hmem with h | h
          · exact Or.inl (List.mem_cons_of_mem d h)
          · exact Or.inl (by rw [Option.some.inj h]; exact List.mem_cons_self v l)
        · intro e he
          rcases List.mem_cons.mp he with rfl | he2
          · exact hvd
          · exact hbound e he2
        · intro w hw
          rw [hw] at hlt
          have hdw : d < w := by simpa [ltInf] using hlt
          exact le_trans hvd hdw.le
      · have hmin : minU m0 d = m0 := by unfold minU; rw [Bool.not_eq_true] at hlt; rw [hlt]; rfl
        rw [hmin] at hmem hseed
        obtain ⟨w0, hw0⟩ : ∃ w0, m0 = some w0 := by
          cases m0 with
          | none => exact absurd rfl hlt
          | some w0 => exact ⟨w0, rfl⟩
        have hw0d : w0 ≤ d := by
          rw [hw0] at hlt
          have : ¬ (d < w0) := by simpa [ltInf] using hlt
          exact not_lt.mp this
        refine ⟨?_, ?_, hseed⟩
        · rcases hmem with h | h
          · exact Or.inl (List.mem_cons_of_mem d h)
          · exact Or.inr h
        · intro e he
          rcases List.mem_cons.mp he with rfl | he2
          · exact le_trans (hseed w0 hw0) hw0d
          · exact hbound e he2

/-- Two runs of the running minimum over lists with the same members agree. -/
theorem foldl_minU_congr (l1 l2 : List ℚ) (h : ∀ x : ℚ, x ∈ l1 ↔ x ∈ l2) :
    l1.foldl minU none = l2.foldl minU none := by
  rcases h1 : l1.foldl minU none with _ | v1 <;>
    rcases h2 : l2.foldl minU none with _ | v2
  · rfl
  · exfalso
    have he1 : l1 = [] := ((foldl_minU_spec l1 none).1.mp h1).1
    have he2 : l2 = [] := by
      rw [List.eq_nil_iff_forall_not_mem]
      intro x hx
      have := (h x).mpr hx
      rw [he1] at this
      exact absurd this (List.not_mem_nil x)
    rw [he2, List.foldl_nil] at h2
    exact Option.noConfusion h2
  · exfalso
    have he2 : l2 = [] := ((foldl_minU_spec l2 none).1.mp h2).1
    have he1 : l1 = [] := by
      rw [List.eq_nil_iff_forall_not_mem]
      intro x hx
      have := (h x).mp hx
      rw [he2] at this
      exact absurd this (List.not_mem_nil x)
    rw [he1, List.foldl_nil] at h1
    exact Option.noConfusion h1
  · obtain ⟨hm1, hb1, _⟩ := (foldl_minU_spec l1 none).2 v1 h1
    obtain ⟨hm2, hb2, _⟩ := (foldl_minU_spec l2 none).2 v2 h2
    have hv1 : v1 ∈ l1 := by
      rcases hm1 with hh | hh
      · exact hh
      · exact Option.noConfusion hh
    have hv2 : v2 ∈ l2 := by
      rcases hm2 with hh | hh
      · exact hh
      · exact Option.noConfusion hh
    have h12 : v2 ≤ v1 := hb2 v1 ((h v1).mp hv1)
    have h21 : v1 ≤ v2 := hb1 v2 ((h v2).mpr hv2)
    rw [le_antisymm h21 h12]

theorem foldl_const {α β : Type} : ∀ (l : List α) (b : β), l.foldl (fun t _ => t) b = b
  | [], _ => rfl
  | _ :: l, b => foldl_const l b

theorem mem_starsOf {n : ℕ} {bodies : Fin n → Body} {s : Fin n} :
    s ∈ starsOf n bodies ↔ (bodies s).isStar = true := by
  simp [starsOf, List.mem_filter, List.mem_finRange]

/-- Every planet-star pair of the first version's loop corresponds to a star
index with the same distance and the same band test. -/
theorem psp_to_star {n : ℕ} (sqrt : ℚ → ℚ) (bodies : Fin n → Body) (pl : Fin n)
    (hns : (bodies pl).isStar = false) (p : Fin n × Fin n)
    (hpsp : isPSP n bodies pl p) :
    ∃ s : Fin n, (bodies s).isStar = true
      ∧ pairDist n sqrt bodies p = starDist n sqrt bodies pl s
      ∧ (pairBand n sqrt bodies p ↔ starBand n sqrt bodies pl s) := by
  rcases hpsp with ⟨h1, h2⟩ | ⟨h1, h2⟩
  · have hd : pairDist n sqrt bodies p = starDist n sqrt bodies pl p.2 := by
      unfold pairDist starDist
      rw [h1]
      exact congrArg sqrt (by ring)
    have hstar : pairStar n bodies p = bodies p.2 := by
      simp [pairStar, h1, hns]
    refine ⟨p.2, h2, hd, ?_⟩
    unfold pairBand starBand
    rw [hstar, hd]
  · have hd : pairDist n sqrt bodies p = starDist n sqrt bodies pl p.1 := by
      unfold pairDist starDist
      rw [h1]
    have hstar : pairStar n bodies p = bodies p.1 := by
      simp [pairStar, h2]
    refine ⟨p.1, h2, hd, ?_⟩
    unfold pairBand starBand
    rw [hstar, hd]

/-- Every star index corresponds to a planet-star pair of the first version's
loop with the same distance and the same band test. -/
theorem star_to_psp {n : ℕ} (sqrt : ℚ → ℚ) (bodies : Fin n → Body) (pl : Fin n)
    (hns : (bodies pl).isStar = false) (s : Fin n)
    (hs : (bodies s).isStar = true) :
    ∃ p : Fin n × Fin n, p.1 < p.2 ∧ isPSP n bodies pl p
      ∧ pairDist n sqrt bodies p = starDist n sqrt bodies pl s
      ∧ (pairBand n sqrt bodies p ↔ starBand n sqrt bodies pl s) := by
  have hne : s ≠ pl := by
    intro h
    rw [h, hns] at hs
    exact Bool.noConfusion hs
  rcases lt_or_gt_of_ne hne with hlt | hgt
  · refine ⟨(s, pl), hlt, Or.inr ⟨rfl, hs⟩, rfl, ?_⟩
    have hstar : pairStar n bodies (s, pl) = bodies s := by
      simp [pairStar, hs]
    unfold pairBand starBand
    rw [hstar, show pairDist n sqrt bodies (s, pl) = starDist n sqrt bodies pl s from rfl]
  · have hd : pairDist n sqrt bodies (pl, s) = starDist n sqrt bodies pl s := by
      unfold pairDist starDist
      exact congrArg sqrt (by ring)
    have hstar : pairStar n bodies (pl, s) = bodies s := by
      simp [pairStar, hns]
    refine ⟨(pl, s), hgt, Or.inl ⟨rfl, hs⟩, hd, ?_⟩
    unfold pairBand starBand
    rw [hstar, hd]

/-- The bookkeeping components of one iteration of the first version's pair
loop, when a planet exists. -/
theorem energyPairStep_snd {n : ℕ} (G : ℚ) (sqrt : ℚ → ℚ) (bodies : Fin n → Body)
    (pl : Fin n) (s : ℚ × Bool × Option ℚ) (p : Fin n × Fin n) :
    (PhysicsEngine.energyPairStep n G sqrt bodies (some pl) s p).2
      = if isPSP n bodies pl p then
          ((if pairBand n sqrt bodies p then true else s.2.1),
           minU s.2.2 (pairDist n sqrt bodies p))
        else s.2 := by
  unfold PhysicsEngine.energyPairStep isPSP pairBand pairDist pairStar minU
  dsimp only
  by_cases hpsp : (p.1 = pl ∧ (bodies p.2).isStar = true)
      ∨ (p.2 = pl ∧ (bodies p.1).isStar = true)
  · rw [if_pos hpsp, if_pos hpsp]
  · rw [if_neg hpsp, if_neg hpsp]

/-- First version: with a planet present, the pair loop's habitable flag is an
any-scan over the stars and its minimum planet-star distance is the running
minimum over the stars' distances. -/
theorem habitable_v1_char {n : ℕ} (G : ℚ) (sqrt : ℚ → ℚ) (bodies : Fin n → Body)
    (pl : Fin n) (hns : (bodies pl).isStar = false) :
    ((upperPairs n).foldl (PhysicsEngine.energyPairStep n G sqrt bodies (some pl))
        ((0 : ℚ), (false : Bool), (none : Option ℚ))).2
      = ((starsOf n bodies).any (fun s => decide (starBand n sqrt bodies pl s)),
         ((starsOf n bodies).map (starDist n sqrt bodies pl)).foldl minU none) := by
  have hsnd := foldl_snd_eq (PhysicsEngine.energyPairStep n G sqrt bodies (some pl))
    (fun (t : Bool × Option ℚ) (p : Fin n × Fin n) =>
      if isPSP n bodies pl p then
        ((if pairBand n sqrt bodies p then true else t.1),
         minU t.2 (pairDist n sqrt bodies p))
      else t)
    (fun s p => energyPairStep_snd G sqrt bodies pl s p)
    (upperPairs n) ((0 : ℚ), (false, none))
  rw [hsnd]
  have hfst := foldl_fst_eq
    (fun (t : Bool × Option ℚ) (p : Fin n × Fin n) =>
      if isPSP n bodies pl p then
        ((if pairBand n sqrt bodies p then true else t.1),
         minU t.2 (pairDist n sqrt bodies p))
      else t)
    (fun (h : Bool) (p : Fin n × Fin n) =>
      if isPSP n bodies pl p then (if pairBand n sqrt bodies p then true else h) else h)
    (fun t p => by
      dsimp only
      by_cases h : isPSP n bodies pl p
      · rw [if_pos h, if_pos h]
      · rw [if_neg h, if_neg h])
    (upperPairs n) (false, none)
  have hsnd2 := foldl_snd_eq
    (fun (t : Bool × Option ℚ) (p : Fin n × Fin n) =>
      if isPSP n bodies pl p then
        ((if pairBand n sqrt bodies p then true else t.1),
         minU t.2 (pairDist n sqrt bodies p))
      else t)
    (fun (m : Option ℚ) (p : Fin n × Fin n) =>
      if isPSP n bodies pl p then minU m (pairDist n sqrt bodies p) else m)
    (fun t p => by
      dsimp only
      by_cases h : isPSP n bodies pl p
      · rw [if_pos h, if_pos h]
      · rw [if_neg h, if_neg h])
    (upperPairs n) (false, none)
  have hpair : ((upperPairs n).foldl
      (fun (t : Bool × Option ℚ) (p : Fin n × Fin n) =>
        if isPSP n bodies pl p then
          ((if pairBand n sqrt bodies p then true else t.1),
           minU t.2 (pairDist n sqrt bodies p))
        else t) (false, none))
      = (((upperPairs n).foldl
          (fun (h : Bool) (p : Fin n × Fin n) =>
            if isPSP n bodies pl p then (if pairBand n sqrt bodies p then true else h) else h)
          false),
         ((upperPairs n).foldl
          (fun (m : Option ℚ) (p : Fin n × Fin n) =>
            if isPSP n bodies pl p then minU m (pairDist n sqrt bodies p) else m)
          none)) := by
    rw [← hfst, ← hsnd2]
  rw [hpair]
  congr 1
  · -- habitable flag: any-scan equivalence
    have hor : (fun (h : Bool) (p : Fin n × Fin n) =>
        if isPSP n bodies pl p then (if pairBand n sqrt bodies p then true else h) else h)
        = fun h p => h || (decide (isPSP n bodies pl p) && decide (pairBand n sqrt bodies p)) := by
      funext h p
      by_cases h1 : isPSP n bodies pl p <;> by_cases h2 : pairBand n sqrt bodies p <;>
        simp [h1, h2]
    rw [hor, foldl_or_any, Bool.false_or]
    have hiff : ((upperPairs n).any
          (fun p => decide (isPSP n bodies pl p) && decide (pairBand n sqrt bodies p)) = true)
        ↔ ((starsOf n bodies).any (fun s => decide (starBand n sqrt bodies pl s)) = true) := by
      rw [List.any_eq_true, List.any_eq_true]
      constructor
      · rintro ⟨p, hp, hcond⟩
        rw [Bool.and_eq_true, decide_eq_true_eq, decide_eq_true_eq] at hcond
        obtain ⟨s, hs, _, hband⟩ := psp_to_star sqrt bodies pl hns p hcond.1
        exact ⟨s, mem_starsOf.mpr hs, by rw [decide_eq_true_eq]; exact hband.mp hcond.2⟩
      · rintro ⟨s, hs, hband⟩
        rw [decide_eq_true_eq] at hband
        obtain ⟨p, hlt, hpsp, _, hband2⟩ :=
          star_to_psp sqrt bodies pl hns s (mem_starsOf.mp hs)
        refine ⟨p, mem_upperPairs.mpr hlt, ?_⟩
        rw [Bool.and_eq_true, decide_eq_true_eq, decide_eq_true_eq]
        exact ⟨hpsp, hband2.mpr hband⟩
    rcases hb1 : (upperPairs n).any
        (fun p => decide (isPSP n bodies pl p) && decide (pairBand n sqrt bodies p)) with _ | _
    · rcases hb2 : (starsOf n bodies).any (fun s => decide (starBand n sqrt bodies pl s)) with _ | _
      · rfl
      · exact absurd (hiff.mpr hb2) (by rw [hb1]; exact Bool.noConfusion)
    · exact (hiff.mp hb1).symm
  · -- minimum distance: conditional fold to filtered mapped fold, then
    -- member-set equality
    have hcond : (fun (m : Option ℚ) (p : Fin n × Fin n) =>
        if isPSP n bodies pl p then minU m (pairDist n sqrt bodies p) else m)
        = fun m p => if (fun q => decide (isPSP n bodies pl q)) p = true
            then minU m (pairDist n sqrt bodies p) else m := by
      funext m p
      by_cases h1 : isPSP n bodies pl p <;> simp [h1]
    rw [hcond, foldl_filter_eq (fun q => decide (isPSP n bodies pl q))
      (fun m p => minU m (pairDist n sqrt bodies p))]
    rw [show ((upperPairs n).filter fun q => decide (isPSP n bodies pl q)).foldl
        (fun m p => minU m (pairDist n sqrt bodies p)) none
      = (((upperPairs n).filter fun q => decide (isPSP n bodies pl q)).map
          (pairDist n sqrt bodies)).foldl minU none from (List.foldl_map _ _ _ _).symm]
    apply foldl_minU_congr
    intro x
    rw [List.mem_map, List.mem_map]
    constructor
    · rintro ⟨p, hp, rfl⟩
      rw [List.mem_filter, decide_eq_true_eq] at hp
      obtain ⟨s, hs, hd, _⟩ := psp_to_star sqrt bodies pl hns p hp.2
      exact ⟨s, mem_starsOf.mpr hs, hd.symm⟩
    · rintro ⟨s, hs, rfl⟩
      obtain ⟨p, hlt, hpsp, hd, _⟩ :=
        star_to_psp sqrt bodies pl hns s (mem_starsOf.mp hs)
      refine ⟨p, ?_, hd⟩
      rw [List.mem_filter, decide_eq_true_eq]
      exact ⟨mem_upperPairs.mpr hlt, hpsp⟩

/-- The kinetic component of the second version's categorization pass equals
the first version's. -/
theorem categorize_fst {n : ℕ} (bodies : Fin n → Body) :
    (PhysicsEngine2.categorize n bodies).1 = (PhysicsEngine.kineticAndPlanet n bodies).1 := by
  have h1 := foldl_fst_eq
    (fun (s : ℚ × Option (Fin n) × List (Fin n)) (i : Fin n) =>
      (s.1 + 0.5 * (bodies i).mass
        * ((bodies i).velocity.x ^ 2 + (bodies i).velocity.y ^ 2 + (bodies i).velocity.z ^ 2),
       if (bodies i).isStar then s.2.1 else some i,
       if (bodies i).isStar then s.2.2 ++ [i] else s.2.2))
    (fun (k : ℚ) (i : Fin n) =>
      k + 0.5 * (bodies i).mass
        * ((bodies i).velocity.x ^ 2 + (bodies i).velocity.y ^ 2 + (bodies i).velocity.z ^ 2))
    (fun s i => rfl) (List.finRange n)
    ((0 : ℚ), (none : Option (Fin n)), ([] : List (Fin n)))
  have h2 := foldl_fst_eq
    (fun (s : ℚ × Option (Fin n)) (i : Fin n) =>
      (s.1 + 0.5 * (bodies i).mass
        * ((bodies i).velocity.x ^ 2 + (bodies i).velocity.y ^ 2 + (bodies i).velocity.z ^ 2),
       if (bodies i).isStar then s.2 else some i))
    (fun (k : ℚ) (i : Fin n) =>
      k + 0.5 * (bodies i).mass
        * ((bodies i).velocity.x ^ 2 + (bodies i).velocity.y ^ 2 + (bodies i).velocity.z ^ 2))
    (fun s i => rfl) (List.finRange n) ((0 : ℚ), (none : Option (Fin n)))
  exact h1.trans h2.symm

/-- The planet component of the second version's categorization pass equals
the first version's. -/
theorem categorize_planet {n : ℕ} (bodies : Fin n → Body) :
    (PhysicsEngine2.categorize n bodies).2.1 = (PhysicsEngine.kineticAndPlanet n bodies).2 := by
  have h1 := foldl_snd_eq
    (fun (s : ℚ × Option (Fin n) × List (Fin n)) (i : Fin n) =>
      (s.1 + 0.5 * (bodies i).mass
        * ((bodies i).velocity.x ^ 2 + (bodies i).velocity.y ^ 2 + (bodies i).velocity.z ^ 2),
       if (bodies i).isStar then s.2.1 else some i,
       if (bodies i).isStar then s.2.2 ++ [i] else s.2.2))
    (fun (t : Option (Fin n) × List (Fin n)) (i : Fin n) =>
      ((if (bodies i).isStar then t.1 else some i),
       (if (bodies i).isStar then t.2 ++ [i] else t.2)))
    (fun s i => rfl) (List.finRange n)
    ((0 : ℚ), (none : Option (Fin n)), ([] : List (Fin n)))
  have h2 := foldl_fst_eq
    (fun (t : Option (Fin n) × List (Fin n)) (i : Fin n) =>
      ((if (bodies i).isStar then t.1 else some i),
       (if (bodies i).isStar then t.2 ++ [i] else t.2)))
    (fun (pl : Option (Fin n)) (i : Fin n) => if (bodies i).isStar then pl else some i)
    (fun s i => rfl) (List.finRange n) ((none : Option (Fin n)), ([] : List (Fin n)))
  have h3 := foldl_snd_eq
    (fun (s : ℚ × Option (Fin n)) (i : Fin n) =>
      (s.1 + 0.5 * (bodies i).mass
        * ((bodies i).velocity.x ^ 2 + (bodies i).velocity.y ^ 2 + (bodies i).velocity.z ^ 2),
       if (bodies i).isStar then s.2 else some i))
    (fun (pl : Option (Fin n)) (i : Fin n) => if (bodies i).isStar then pl else some i)
    (fun s i => rfl) (List.finRange n) ((0 : ℚ), (none : Option (Fin n)))
  exact ((congrArg Prod.fst h1).trans h2).trans h3.symm

/-- The star list of the second version's categorization pass is the filter
of the index range by isStar, in order. -/
theorem categorize_stars {n : ℕ} (bodies : Fin n → Body) :
    (PhysicsEngine2.categorize n bodies).2.2 = starsOf n bodies := by
  have h1 := foldl_snd_eq
    (fun (s : ℚ × Option (Fin n) × List (Fin n)) (i : Fin n) =>
      (s.1 + 0.5 * (bodies i).mass
        * ((bodies i).velocity.x ^ 2 + (bodies i).velocity.y ^ 2 + (bodies i).velocity.z ^ 2),
       if (bodies i).isStar then s.2.1 else some i,
       if (bodies i).isStar then s.2.2 ++ [i] else s.2.2))
    (fun (t : Option (Fin n) × List (Fin n)) (i : Fin n) =>
      ((if (bodies i).isStar then t.1 else some i),
       (if (bodies i).isStar then t.2 ++ [i] else t.2)))
    (fun s i => rfl) (List.finRange n)
    ((0 : ℚ), (none : Option (Fin n)), ([] : List (Fin n)))
  have h2 := foldl_snd_eq
    (fun (t : Option (Fin n) × List (Fin n)) (i : Fin n) =>
      ((if (bodies i).isStar then t.1 else some i),
       (if (bodies i).isStar then t.2 ++ [i] else t.2)))
    (fun (st : List (Fin n)) (i : Fin n) => if (bodies i).isStar then st ++ [i] else st)
    (fun s i => rfl) (List.finRange n) ((none : Option (Fin n)), ([] : List (Fin n)))
  have h3 := foldl_append_filter (fun i : Fin n => (bodies i).isStar) (List.finRange n)
    ([] : List (Fin n))
  exact ((congrArg Prod.snd h1).trans h2).trans (h3.trans (List.nil_append _))

/-- The planet fold of the first pass only ever stores non-star indices. -/
theorem planet_fold_not_star {n : ℕ} (bodies : Fin n → Body) :
    ∀ (l : List (Fin n)) (acc : Option (Fin n)) (p : Fin n),
      (∀ j, acc = some j → (bodies j).isStar = false) →
      l.foldl (fun pl i => if (bodies i).isStar then pl else some i) acc = some p →
      (bodies p).isStar = false
  | [], _, p, hacc, hfold => hacc p hfold
  | x :: l, acc, p, hacc, hfold => by
    rw [List.foldl_cons] at hfold
    by_cases hx : (bodies x).isStar
    · rw [if_pos hx] at hfold
      exact planet_fold_not_star bodies l acc p hacc hfold
    · rw [if_neg hx] at hfold
      refine planet_fold_not_star bodies l (some x) p (fun j hj => ?_) hfold
      injection hj with h
      rw [← h]
      exact Bool.eq_false_iff.mpr hx

/-- The planet tracked by the first version's first pass is never a star. -/
theorem kineticAndPlanet_not_star {n : ℕ} (bodies : Fin n → Body) (pl : Fin n)
    (hpl : (PhysicsEngine.kineticAndPlanet n bodies).2 = some pl) :
    (bodies pl).isStar = false := by
  have h3 := foldl_snd_eq
    (fun (s : ℚ × Option (Fin n)) (i : Fin n) =>
      (s.1 + 0.5 * (bodies i).mass
        * ((bodies i).velocity.x ^ 2 + (bodies i).velocity.y ^ 2 + (bodies i).velocity.z ^ 2),
       if (bodies i).isStar then s.2 else some i))
    (fun (q : Option (Fin n)) (i : Fin n) => if (bodies i).isStar then q else some i)
    (fun s i => rfl) (List.finRange n) ((0 : ℚ), (none : Option (Fin n)))
  exact planet_fold_not_star bodies (List.finRange n) none pl
    (fun j hj => by simp at hj) (h3.symm.trans hpl)

/-- Second version: with a planet present, habitableCheck is an any-scan over
the stars followed by the burn check against the running minimum distance. -/
theorem habitableCheck_some {n : ℕ} (sqrt : ℚ → ℚ) (bodies : Fin n → Body)
    (pl : Fin n) (stars : List (Fin n)) :
    PhysicsEngine2.habitableCheck n sqrt bodies (some pl) stars
      = if infLtTwo ((stars.map (starDist n sqrt bodies pl)).foldl minU none) then false
        else stars.any (fun s => decide (starBand n sqrt bodies pl s)) := by
  show (if infLtTwo
          ((stars.foldl (fun (s : Bool × Option ℚ) (si : Fin n) =>
              ((if starBand n sqrt bodies pl si then true else s.1),
               minU s.2 (starDist n sqrt bodies pl si))) ((false : Bool), (none : Option ℚ))).2)
        then false
        else (stars.foldl (fun (s : Bool × Option ℚ) (si : Fin n) =>
              ((if starBand n sqrt bodies pl si then true else s.1),
               minU s.2 (starDist n sqrt bodies pl si))) ((false : Bool), (none : Option ℚ))).1)
      = _
  have h1 := foldl_fst_eq
    (fun (s : Bool × Option ℚ) (si : Fin n) =>
      ((if starBand n sqrt bodies pl si then true else s.1),
       minU s.2 (starDist n sqrt bodies pl si)))
    (fun (h : Bool) (si : Fin n) => h || decide (starBand n sqrt bodies pl si))
    (fun t si => by
      dsimp only
      by_cases hb : starBand n sqrt bodies pl si
      · rw [if_pos hb]; simp [hb]
      · rw [if_neg hb]; simp [hb])
    stars ((false : Bool), (none : Option ℚ))
  have h2 := foldl_snd_eq
    (fun (s : Bool × Option ℚ) (si : Fin n) =>
      ((if starBand n sqrt bodies pl si then true else s.1),
       minU s.2 (starDist n sqrt bodies pl si)))
    (fun (m : Option ℚ) (si : Fin n) => minU m (starDist n sqrt bodies pl si))
    (fun t si => rfl) stars ((false : Bool), (none : Option ℚ))
  rw [h1, h2, foldl_or_any, Bool.false_or,
    show stars.foldl (fun (m : Option ℚ) (si : Fin n) => minU m (starDist n sqrt bodies pl si))
        (none : Option ℚ)
      = (stars.map (starDist n sqrt bodies pl)).foldl minU none
      from (List.foldl_map _ _ _ _).symm]

/-- The two versions of calculateEnergyStats agree on every body array and
configuration. -/
theorem calculateEnergyStats_eq {n : ℕ} (sqrt : ℚ → ℚ) (cfg : SimulationConfig)
    (bodies : Fin n → Body) :
    PhysicsEngine.calculateEnergyStats n sqrt cfg bodies
      = PhysicsEngine2.calculateEnergyStats n sqrt cfg bodies := by
  unfold PhysicsEngine.calculateEnergyStats PhysicsEngine2.calculateEnergyStats
  dsimp only
  have h1 := foldl_fst_eq
    (PhysicsEngine.energyPairStep n cfg.G sqrt bodies (PhysicsEngine.kineticAndPlanet n bodies).2)
    (fun (q : ℚ) (p : Fin n × Fin n) =>
      q - cfg.G * (bodies p.1).mass * (bodies p.2).mass
          / sqrt (((bodies p.1).position.x - (bodies p.2).position.x)
                * ((bodies p.1).position.x - (bodies p.2).position.x)
              + ((bodies p.1).position.y - (bodies p.2).position.y)
                * ((bodies p.1).position.y - (bodies p.2).position.y)
              + ((bodies p.1).position.z - (bodies p.2).position.z)
                * ((bodies p.1).position.z - (bodies p.2).position.z)))
    (energyPairStep_fst cfg.G sqrt bodies (PhysicsEngine.kineticAndPlanet n bodies).2)
    (upperPairs n) ((0 : ℚ), (false : Bool), (none : Option ℚ))
  have hpotLoop : PhysicsEngine2.potentialLoop n cfg.G sqrt bodies
      = (upperPairs n).foldl
          (fun (q : ℚ) (p : Fin n × Fin n) =>
            q - cfg.G * (bodies p.1).mass * (bodies p.2).mass
                / sqrt (((bodies p.1).position.x - (bodies p.2).position.x)
                      * ((bodies p.1).position.x - (bodies p.2).position.x)
                    + ((bodies p.1).position.y - (bodies p.2).position.y)
                      * ((bodies p.1).position.y - (bodies p.2).position.y)
                    + ((bodies p.1).position.z - (bodies p.2).position.z)
                      * ((bodies p.1).position.z - (bodies p.2).position.z))) 0 := rfl
  have hpot : PhysicsEngine2.potentialLoop n cfg.G sqrt bodies
      = ((upperPairs n).foldl
          (PhysicsEngine.energyPairStep n cfg.G sqrt bodies
            (PhysicsEngine.kineticAndPlanet n bodies).2)
          ((0 : ℚ), (false : Bool), (none : Option ℚ))).1 := hpotLoop.trans h1.symm
  rw [categorize_fst bodies, categorize_planet bodies, categorize_stars bodies, hpot]
  rw [EnergyStats.mk.injEq]
  refine ⟨rfl, rfl, rfl, ?_⟩
  cases hpl : (PhysicsEngine.kineticAndPlanet n bodies).2 with
  | none =>
    have hhc : PhysicsEngine2.habitableCheck n sqrt bodies none (starsOf n bodies) = false := rfl
    rw [hhc]
    have hsnd := foldl_snd_eq
      (PhysicsEngine.energyPairStep n cfg.G sqrt bodies none)
      (fun (t : Bool × Option ℚ) (_ : Fin n × Fin n) => t)
      (fun s p => rfl) (upperPairs n) ((0 : ℚ), (false : Bool), (none : Option ℚ))
    rw [hsnd, foldl_const]
    simp
  | some pl =>
    have hns := kineticAndPlanet_not_star bodies pl hpl
    rw [habitable_v1_char cfg.G sqrt bodies pl hns,
      habitableCheck_some sqrt bodies pl (starsOf n bodies)]
    simp

/-- With no injection function configured, the two versions' evaluate agree
(the first version's controller block is dead code). -/
theorem evaluate_eq {n : ℕ} (sqrt : ℚ → ℚ) (cfg : SimulationConfig)
    (hc : cfg.controller = none) (ct : ℚ) (inputState : Fin n → Body) (dt : ℚ)
    (deriv : Option (DerivativeBuffer n)) :
    PhysicsEngine.evaluate n sqrt cfg ct inputState dt deriv
      = PhysicsEngine2.evaluate n sqrt cfg inputState dt deriv := by
  unfold PhysicsEngine.evaluate PhysicsEngine2.evaluate
  simp only [hc]

/-- With no stability controller attached, step (first version) changes
neither the controller slot nor the configuration. -/
theorem step_preserves {n : ℕ} (sqrt : ℚ → ℚ) (e : PhysicsEngine.State n) (dt : ℚ)
    (hstab : e.stabilityController = none) :
    (PhysicsEngine.step sqrt e dt).stabilityController = none
    ∧ (PhysicsEngine.step sqrt e dt).config = e.config := by
  unfold PhysicsEngine.step
  simp only [stepHook_none e dt hstab]
  constructor
  · split <;> exact hstab
  · split <;> rfl

/-- One step commutes with the state correspondence when no controller and no
injection function are present. -/
theorem step_toV2 {n : ℕ} (sqrt : ℚ → ℚ) (e : PhysicsEngine.State n) (dt : ℚ)
    (hstab : e.stabilityController = none) (hc : e.config.controller = none) :
    toV2 (PhysicsEngine.step sqrt e dt) = PhysicsEngine2.step sqrt (toV2 e) dt := by
  unfold PhysicsEngine.step PhysicsEngine2.step
  simp only [stepHook_none e dt hstab, toV2, evaluate_eq sqrt e.config hc]
  split_ifs with h
  · simp [calculateEnergyStats_eq]
  · rfl

/-- Any sequence of steps preserves the absence of controller and injection
function and commutes with the state correspondence. -/
theorem steps_toV2 {n : ℕ} (sqrt : ℚ → ℚ) :
    ∀ (dts : List ℚ) (e : PhysicsEngine.State n),
      e.stabilityController = none → e.config.controller = none →
      (dts.foldl (PhysicsEngine.step sqrt) e).stabilityController = none
      ∧ (dts.foldl (PhysicsEngine.step sqrt) e).config.controller = none
      ∧ toV2 (dts.foldl (PhysicsEngine.step sqrt) e)
          = dts.foldl (PhysicsEngine2.step sqrt) (toV2 e)
  | [], e, hs, hc => ⟨hs, hc, rfl⟩
  | dt :: dts, e, hs, hc => by
    rw [List.foldl_cons, List.foldl_cons]
    obtain ⟨h1, h2⟩ := step_preserves sqrt e dt hs
    have hc' : (PhysicsEngine.step sqrt e dt).config.controller = none := by
      rw [h2]; exact hc
    obtain ⟨g1, g2, g3⟩ := steps_toV2 sqrt dts (PhysicsEngine.step sqrt e dt) h1 hc'
    exact ⟨g1, g2, by rw [g3, step_toV2 sqrt e dt hs hc]⟩

/-- getStats returns the same snapshot through the state correspondence. -/
theorem getStats_toV2 {n : ℕ} (sqrt : ℚ → ℚ) (e : PhysicsEngine.State n) :
    (PhysicsEngine.getStats sqrt e).1 = (PhysicsEngine2.getStats sqrt (toV2 e)).1 := by
  unfold PhysicsEngine.getStats PhysicsEngine2.getStats
  cases h : e.statsCache with
  | none => simp [toV2, h, calculateEnergyStats_eq]
  | some s => simp [toV2, h]

/-- The two constructors produce corresponding states. -/
theorem create_toV2 {n : ℕ} (sqrt : ℚ → ℚ) (b : Fin n → Body) (cfg : SimulationConfig) :
    toV2 (PhysicsEngine.create sqrt b cfg) = PhysicsEngine2.create sqrt b cfg := by
  unfold toV2 PhysicsEngine.create PhysicsEngine2.create
  dsimp only
  rw [calculateEnergyStats_eq]

/-- C10: the two PhysicsEngine implementations in part_000 are equivalent
when no stability controller is attached and the configuration contains no
acceleration-injection function: for every square-root function, initial body
array, configuration and finite sequence of step(dt) calls, both versions
produce identical body arrays (positions and velocities) and identical
energy statistics (totalEnergy, kineticEnergy, potentialEnergy, habitable)
from getStats. -/
theorem engines_equivalent {n : ℕ} (sqrt : ℚ → ℚ) (initialBodies : Fin n → Body)
    (cfg : SimulationConfig) (hctrl : cfg.controller = none) (dts : List ℚ) :
    (dts.foldl (PhysicsEngine.step sqrt) (PhysicsEngine.create sqrt initialBodies cfg)).bodies
      = (dts.foldl (PhysicsEngine2.step sqrt)
          (PhysicsEngine2.create sqrt initialBodies cfg)).bodies
    ∧ (PhysicsEngine.getStats sqrt
        (dts.foldl (PhysicsEngine.step sqrt) (PhysicsEngine.create sqrt initialBodies cfg))).1
      = (PhysicsEngine2.getStats sqrt
        (dts.foldl (PhysicsEngine2.step sqrt)
          (PhysicsEngine2.create sqrt initialBodies cfg))).1 := by
  have hs : (PhysicsEngine.create sqrt initialBodies cfg).stabilityController = none := rfl
  have hcc : (PhysicsEngine.create sqrt initialBodies cfg).config.controller = none := hctrl
  obtain ⟨-, -, h3⟩ := steps_toV2 sqrt dts (PhysicsEngine.create sqrt initialBodies cfg) hs hcc
  rw [create_toV2] at h3
  constructor
  · exact congrArg PhysicsEngine2.State.bodies h3
  · exact (getStats_toV2 sqrt _).trans
      (congrArg (fun e2 => (PhysicsEngine2.getStats sqrt e2).1) h3)

/-- Closed instance of C10: a single unit step of a one-body zero-gravity
system under both engine versions, with the controller hypothesis discharged
by rfl. -/
theorem engines_equivalent_witness :
    zeroGConfig.controller = none
    ∧ (([(1 : ℚ)].foldl (PhysicsEngine.step id)
          (PhysicsEngine.create id oneBody zeroGConfig)).bodies
        = ([(1 : ℚ)].foldl (PhysicsEngine2.step id)
            (PhysicsEngine2.create id oneBody zeroGConfig)).bodies
      ∧ (PhysicsEngine.getStats id
          ([(1 : ℚ)].foldl (PhysicsEngine.step id)
            (PhysicsEngine.create id oneBody zeroGConfig))).1
        = (PhysicsEngine2.getStats id
          ([(1 : ℚ)].foldl (PhysicsEngine2.step id)
            (PhysicsEngine2.create id oneBody zeroGConfig))).1) :=
  ⟨rfl, engines_equivalent id oneBody zeroGConfig rfl [1]⟩
